import Mathlib

/-!
# Verification of the LazyEnv environment manager

Shallow embedding of the LazyEnv sources (`src/python.rs`, `src/app.rs`,
`src/main.rs`) and proofs about their claimed properties.

External effects (process spawning, filesystem probing, JSON parsing by the
`serde_json` library) are modelled by oracle structures: each oracle field
records the outcome the external world would deliver for one specific
invocation the source makes.  Machine strings are Lean `String`s, filesystem
paths are the strings the code builds (the POSIX `cfg!(windows) = false`
branches of the source are modelled; path joining is `++ "/" ++ component`).
`io::Result<T>` is modelled as `Except String T` (the error's display text),
and `Option` models `Option`/nullable lookups.  Rust's `u8` counter is
modelled as `Nat` reduced mod 256 where it is incremented.
-/

set_option maxHeartbeats 1000000
set_option linter.unreachableTactic false
set_option linter.unusedTactic false

/-- Output of a completed subprocess: `std::process::Output` with the exit
status abstracted to `success` and the two streams already decoded
(`String::from_utf8_lossy`). -/
structure RunOut where
  success : Bool
  stdout : String
  stderr : String
  deriving DecidableEq

/-- `PythonEnvironment` from `src/python.rs` (fields `name`, `path`,
`python_version`, `env_type`; the `PathBuf` is modelled as the path string). -/
structure PythonEnvironment where
  name : String
  path : String
  python_version : String
  env_type : String
  deriving DecidableEq

/-- `Package` from `src/python.rs`. -/
structure Package where
  name : String
  version : String
  summary : String
  deriving DecidableEq

/-- One JSON object of a structured package listing, as the source reads it:
`get("name")/get("version")/get("summary")` each followed by `as_str()`, so
every field is optional. -/
structure RawPkg where
  name : Option String
  version : Option String
  summary : Option String
  deriving DecidableEq

/-- ASCII whitespace test for the `str::trim` model. -/
def isWsChar (c : Char) : Bool :=
  c = ' ' || c = '\t' || c = '\n' || c = '\r'

/-- Rust `str::trim`, modelled on ASCII whitespace: drop leading and trailing
whitespace characters. -/
def strTrim (s : String) : String :=
  String.mk (((s.toList.dropWhile isWsChar).reverse.dropWhile isWsChar).reverse)

/-- Version-text selection used by every probe in `src/python.rs`: the trimmed
standard output, or the trimmed standard error when the former is empty
(`if version.is_empty() { stderr } else { version }`). -/
def pickVersion (out : RunOut) : String :=
  let version := strTrim out.stdout
  if version.isEmpty then strTrim out.stderr else version

/-- Split a character list at a separator, the grouping `String::split_on`
performs. -/
def splitOnChar (sep : Char) : List Char → List (List Char)
  | [] => [[]]
  | c :: rest =>
    let r := splitOnChar sep rest
    if c = sep then [] :: r
    else
      match r with
      | [] => [[c]]
      | g :: gs => (c :: g) :: gs

/-- `Path::file_name()` on the string paths of this model: the last
`/`-separated component. -/
def pathFileName (p : String) : Option String :=
  ((splitOnChar '/' p.toList).map String.mk).getLast?

/-- Helper for `str::contains`: does `pat` occur as a contiguous run of `l`? -/
def charsContain (pat : List Char) : List Char → Bool
  | [] => pat.isEmpty
  | c :: rest => pat.isPrefixOf (c :: rest) || charsContain pat rest

/-- Rust `String::contains(&str)`: substring occurrence test. -/
def strContains (hay pat : String) : Bool :=
  charsContain pat.toList hay.toList

/-- ASCII lowering of one character, modelling `char::to_lowercase` on the
ASCII range the session's names and paths use. -/
def lowerChar (c : Char) : Char :=
  if 65 ≤ c.toNat ∧ c.toNat ≤ 90 then Char.ofNat (c.toNat + 32) else c

/-- Rust `str::to_lowercase`, modelled character-wise on the ASCII range. -/
def lowerString (s : String) : String := String.mk (s.toList.map lowerChar)

/-! ## Discovery (`list_environments` and its five probes) -/

/-- Oracle for the external world as seen by the discovery probes of
`src/python.rs`: directory tests, file-existence tests, `fs::read_dir`
(`none` models an `Err`, `some` lists the entry paths in iteration order,
already filtered through `filter_map(Result::ok)`), subprocess spawning
keyed by program and argument list (`.error` models an `io::Error` from
`output()`), the home directory (`dirs::home_dir()` with its `"."`
fallback already applied), and the `serde_json` + `get("envs")` extraction
applied to `conda env list --json` output (`none` when parsing fails or
`envs` is missing/not an array; non-string entries are already dropped, as
the source's `as_str()` filter does). -/
structure DiscWorld where
  isDir : String → Bool
  pathExists : String → Bool
  readDir : String → Option (List String)
  run : String → List String → Except String RunOut
  homeDir : String
  condaParse : String → Option (List String)

/-- `is_virtualenv` from `src/python.rs` (POSIX branch): the directory must
hold both `bin/python` and `bin/activate`. -/
def is_virtualenv (w : DiscWorld) (p : String) : Bool :=
  w.pathExists (p ++ "/bin/python") && w.pathExists (p ++ "/bin/activate")

/-- `create_environment_from_path` from `src/python.rs`: take the file name,
spawn `bin/python --version` (spawn failure aborts with `None` via `.ok()?`),
and record `"Unknown"` when the invocation exited non-zero. -/
def create_environment_from_path (w : DiscWorld) (p : String) (envType : String) :
    Option PythonEnvironment :=
  match pathFileName p with
  | none => none
  | some name =>
    match w.run (p ++ "/bin/python") ["--version"] with
    | .error _ => none
    | .ok out =>
      let version := if out.success then pickVersion out else "Unknown"
      some ⟨name, p, version, envType⟩

/-- The `python3` half of `detect_system_python` (the second `Also try
python3` block of the source): the only place in all of discovery that checks
for a duplicate path before pushing. -/
def detect_system_python3 (w : DiscWorld) (envs1 : List PythonEnvironment) :
    List PythonEnvironment × Option String :=
  match w.run "python3" ["--version"] with
  | .ok out =>
    if out.success then
      let version := pickVersion out
      match w.run "python3" ["-c", "import sys; print(sys.executable)"] with
      | .ok out2 =>
        if out2.success then
          let pathBuf := strTrim out2.stdout
          if envs1.all (fun env => env.path != pathBuf) then
            (envs1 ++ [⟨"System Python 3", pathBuf, version, "system"⟩], none)
          else (envs1, none)
        else (envs1, none)
      | .error e => (envs1, some e)
    else (envs1, none)
  | .error _ => (envs1, none)

/-- `detect_system_python` from `src/python.rs`.  The probe mutates the shared
accumulator, so it is modelled as list-passing; the second component is the
`io::Result` error raised by the two `output()?` calls (the pushes made before
that point are kept, as the Rust `&mut Vec` keeps them). Only the
`python3`-derived entry is guarded by a duplicate-path check. -/
def detect_system_python (w : DiscWorld) (envs : List PythonEnvironment) :
    List PythonEnvironment × Option String :=
  let step1 : List PythonEnvironment × Option String :=
    match w.run "python" ["--version"] with
    | .ok out =>
      if out.success then
        let version := pickVersion out
        match w.run "python" ["-c", "import sys; print(sys.executable)"] with
        | .ok out2 =>
          if out2.success then
            (envs ++ [⟨"System Python", strTrim out2.stdout, version, "system"⟩], none)
          else (envs, none)
        | .error e => (envs, some e)
      else (envs, none)
    | .error _ => (envs, none)
  match step1 with
  | (envs1, some e) => (envs1, some e)
  | (envs1, none) => detect_system_python3 w envs1

/-- `detect_venv_environments` from `src/python.rs`: scan `~/.virtualenvs`
entries, then the single `~/.venv` directory; every accepted candidate is
pushed with no duplicate check. -/
def detect_venv_environments (w : DiscWorld) (envs : List PythonEnvironment) :
    List PythonEnvironment :=
  let vdir := w.homeDir ++ "/.virtualenvs"
  let envs1 :=
    if w.isDir vdir then
      match w.readDir vdir with
      | some entries =>
        entries.foldl (fun acc p =>
          if w.isDir p && is_virtualenv w p then
            match create_environment_from_path w p "venv" with
            | some e => acc ++ [e]
            | none => acc
          else acc) envs
      | none => envs
    else envs
  let hv := w.homeDir ++ "/.venv"
  if w.isDir hv && is_virtualenv w hv then
    match create_environment_from_path w hv "venv" with
    | some e => envs1 ++ [e]
    | none => envs1
  else envs1

/-- `detect_pyenv_environments` from `src/python.rs`: scan
`~/.pyenv/versions`; candidates are pushed with no duplicate check. -/
def detect_pyenv_environments (w : DiscWorld) (envs : List PythonEnvironment) :
    List PythonEnvironment :=
  let pdir := w.homeDir ++ "/.pyenv/versions"
  if w.isDir pdir then
    match w.readDir pdir with
    | some entries =>
      entries.foldl (fun acc p =>
        if w.isDir p then
          let pythonExec := p ++ "/bin/python"
          if w.pathExists pythonExec then
            let name := (pathFileName p).getD ""
            match w.run pythonExec ["--version"] with
            | .ok out =>
              if out.success then
                acc ++ [⟨"pyenv: " ++ name, p, pickVersion out, "pyenv"⟩]
              else acc
            | .error _ => acc
          else acc
        else acc) envs
    | none => envs
  else envs

/-- `detect_conda_environments` from `src/python.rs`: query the registry via
`conda env list --json`; candidates are pushed with no duplicate check. -/
def detect_conda_environments (w : DiscWorld) (envs : List PythonEnvironment) :
    List PythonEnvironment :=
  match w.run "conda" ["env", "list", "--json"] with
  | .ok out =>
    if out.success then
      match w.condaParse out.stdout with
      | some paths =>
        paths.foldl (fun acc pathStr =>
          let name := (pathFileName pathStr).getD ""
          let py1 := pathStr ++ "/bin/python"
          let pythonExec := if w.pathExists py1 then py1 else pathStr ++ "/python.exe"
          if w.pathExists pythonExec then
            match w.run pythonExec ["--version"] with
            | .ok o2 =>
              if o2.success then
                acc ++ [⟨"conda: " ++ name, pathStr, pickVersion o2, "conda"⟩]
              else acc
            | .error _ => acc
          else acc) envs
      | none => envs
    else envs
  | .error _ => envs

/-- `detect_local_environments` from `src/python.rs`: scan the entries of the
current directory; candidates are pushed with no duplicate check. -/
def detect_local_environments (w : DiscWorld) (envs : List PythonEnvironment) :
    List PythonEnvironment :=
  match w.readDir "." with
  | some entries =>
    entries.foldl (fun acc p =>
      if w.isDir p then
        if is_virtualenv w p then
          match create_environment_from_path w p "venv" with
          | some e => acc ++ [e]
          | none => acc
        else acc
      else acc) envs
  | none => envs

/-- `list_environments` from `src/python.rs`: the five probes run in order on
one shared accumulator; each probe's error is swallowed (only logged), and the
function itself always returns `Ok`. -/
def list_environments (w : DiscWorld) : List PythonEnvironment :=
  detect_local_environments w
    (detect_conda_environments w
      (detect_pyenv_environments w
        (detect_venv_environments w
          (detect_system_python w []).1)))

/-! ## Package mutation (`install_package`, `uninstall_package`) -/

/-- Oracle for the world as `install_package`/`uninstall_package` see it:
file existence per path, and subprocess spawning keyed by program path and
argument list (`.error` models `Command::output()` returning `Err`). -/
structure PipWorld where
  pathExists : String → Bool
  run : String → List String → Except String RunOut

/-- The `possible_pip_paths` vector both functions build (POSIX branch):
`bin/pip`, `bin/pip3`, then the interpreter itself. -/
def pipCandidates (envPath : String) : List String :=
  [envPath ++ "/bin/pip", envPath ++ "/bin/pip3", envPath ++ "/bin/python"]

/-- The file-name test `pip_path.file_name().map_or(false, |n| n == "python"
|| n == "python.exe")` selecting module-mode invocation. -/
def isPythonExe (p : String) : Bool :=
  match pathFileName p with
  | some n => n == "python" || n == "python.exe"
  | none => false

/-- Spawn one candidate of the pip chain with the operation's subcommand
`sub`, in module mode when the candidate is the interpreter itself. -/
def runPipAt (w : PipWorld) (sub : List String) (p : String) : Except String RunOut :=
  if isPythonExe p then w.run p (["-m", "pip"] ++ sub) else w.run p sub

/-- The shared fallback loop of `install_package`/`uninstall_package`: skip a
missing candidate, spawn an existing one; a completed run returns (success or
the captured stderr behind `msg`), a spawn failure falls through to the next
candidate, and an exhausted chain reports the missing-tool error. -/
def pipChainGo (w : PipWorld) (msg : String) (sub : List String) :
    List String → Except String Unit
  | [] => .error "Could not find pip executable"
  | p :: rest =>
    if w.pathExists p then
      match runPipAt w sub p with
      | .ok out =>
        if out.success then .ok () else .error (msg ++ out.stderr)
      | .error _ => pipChainGo w msg sub rest
    else pipChainGo w msg sub rest

/-- `install_package` from `src/python.rs`. -/
def install_package (w : PipWorld) (envPath packageName : String) : Except String Unit :=
  pipChainGo w "Failed to install package: " ["install", packageName] (pipCandidates envPath)

/-- `uninstall_package` from `src/python.rs`. -/
def uninstall_package (w : PipWorld) (envPath packageName : String) : Except String Unit :=
  pipChainGo w "Failed to uninstall package: " ["uninstall", "-y", packageName]
    (pipCandidates envPath)

/-- Modelled from the claim's words, for comparison with the source chain: the
run outcome of the first candidate that exists on disk and actually launches;
`none` when every candidate is missing or fails to launch. -/
def firstLaunched (w : PipWorld) (sub : List String) : List String → Option RunOut
  | [] => none
  | p :: rest =>
    if w.pathExists p then
      match runPipAt w sub p with
      | .ok out => some out
      | .error _ => firstLaunched w sub rest
    else firstLaunched w sub rest

/-! ## Package listing (`list_packages`, `list_global_packages`) -/

/-- Entry extraction shared by every listing site of `src/python.rs`: keep the
objects holding both a `name` and a `version` string, defaulting `summary` to
the empty string; entries missing a required field are skipped individually. -/
def extractPkgs (l : List RawPkg) : List Package :=
  l.filterMap fun r =>
    match r.name, r.version with
    | some n, some v => some ⟨n, v, r.summary.getD ""⟩
    | _, _ => none

/-- Oracle for `list_packages`: file existence, the spawn outcome of each
candidate's structured-list invocation (`list --format=json`, or
`-m pip list --format=json` for the interpreter), the spawn outcome of the
final `python -c <embedded pkg_resources script>` fallback, and the
`serde_json::from_str::<Vec<Value>>` parse of a captured stdout (`none` on a
parse error). -/
structure ListWorld where
  pathExists : String → Bool
  runList : String → Except String RunOut
  runScript : String → Except String RunOut
  parse : String → Option (List RawPkg)

/-- The `for pip_path in possible_pip_paths` loop of `list_packages`: the
first candidate that exists, exits cleanly and parses returns its entries
(`some`); a missing candidate, spawn failure, non-zero exit or parse failure
all advance the chain; `none` when the loop falls through. -/
def listChainGo (w : ListWorld) : List String → Option (List Package)
  | [] => none
  | p :: rest =>
    if w.pathExists p then
      match w.runList p with
      | .ok out =>
        if out.success then
          match w.parse out.stdout with
          | some l => some (extractPkgs l)
          | none => listChainGo w rest
        else listChainGo w rest
      | .error _ => listChainGo w rest
    else listChainGo w rest

/-- `list_packages` from `src/python.rs`: the three-candidate loop, then the
embedded-script fallback.  The fallback's `output()?` propagates a spawn
failure as a hard error (`Err`), while its non-zero exit or parse failure
falls through to `Ok` with the (empty) accumulator. -/
def list_packages (w : ListWorld) (envPath : String) : Except String (List Package) :=
  match listChainGo w (pipCandidates envPath) with
  | some pkgs => .ok pkgs
  | none =>
    let py := envPath ++ "/bin/python"
    if w.pathExists py then
      match w.runScript py with
      | .error e => .error e
      | .ok out =>
        if out.success then
          match w.parse out.stdout with
          | some l => .ok (extractPkgs l)
          | none => .ok []
        else .ok []
    else .ok []

/-- Oracle for `list_global_packages`: the spawn outcomes of the four
machine-wide invocations (`pip list --format=json`, `pip3 list --format=json`,
`python -c <script>`, `python3 -c <script>`) and the JSON parse. -/
structure GlobalWorld where
  runPip : Except String RunOut
  runPip3 : Except String RunOut
  runPyScript : Except String RunOut
  runPy3Script : Except String RunOut
  parse : String → Option (List RawPkg)

/-- One step of the `for python_cmd in &["python", "python3"]` loop of
`list_global_packages`: `some` (entries, possibly empty) exactly when the
spawn succeeded, the exit was clean and the output parsed — the `break` case;
everything else is `none` and the loop moves on. -/
def globalScriptStep (parse : String → Option (List RawPkg))
    (r : Except String RunOut) : Option (List Package) :=
  match r with
  | .ok out =>
    if out.success then
      match parse out.stdout with
      | some l => some (extractPkgs l)
      | none => none
    else none
  | .error _ => none

/-- `list_global_packages` from `src/python.rs`.  A clean `pip` exit returns
immediately — whether or not its output parsed (the `return Ok(packages)` sits
outside the parse match, so an unparsable clean `pip` run yields `Ok []`
without trying `pip3`).  Otherwise `pip3` may fill the accumulator, and the
interpreter loop runs only when the accumulator is still empty, breaking on
its first clean parse. -/
def list_global_packages (w : GlobalWorld) : Except String (List Package) :=
  match w.runPip with
  | .ok out =>
    if out.success then
      match w.parse out.stdout with
      | some l => .ok (extractPkgs l)
      | none => .ok []
    else list_global_rest w
  | .error _ => list_global_rest w
where
  /-- The `pip3` section: push the parsed entries only on a clean parsed run,
  leaving the accumulator empty otherwise (no early return here). -/
  pip3Fill (parse : String → Option (List RawPkg)) (r : Except String RunOut) :
      List Package :=
    match r with
    | .ok out =>
      if out.success then
        match parse out.stdout with
        | some l => extractPkgs l
        | none => []
      else []
    | .error _ => []
  list_global_rest (w : GlobalWorld) : Except String (List Package) :=
    let packages := pip3Fill w.parse w.runPip3
    let packages :=
      if packages.isEmpty then
        match globalScriptStep w.parse w.runPyScript with
        | some l => packages ++ l
        | none =>
          match globalScriptStep w.parse w.runPy3Script with
          | some l => packages ++ l
          | none => packages
      else packages
    .ok packages

/-- A listing step is *good* when its executable exists, the spawn completed,
the exit was clean and the output parsed; only a good step ends the
environment-scoped chain with its entries. -/
def stepGood (w : ListWorld) (p : String) : Bool :=
  w.pathExists p &&
    match w.runList p with
    | .ok out =>
      out.success &&
        match w.parse out.stdout with
        | some _ => true
        | none => false
    | .error _ => false

/-- Replace a clean-but-unparsable run outcome by a spawn failure; used to
state that the chain treats the two identically. -/
def normRun (parse : String → Option (List RawPkg)) (r : Except String RunOut) :
    Except String RunOut :=
  match r with
  | .ok out =>
    if out.success then
      match parse out.stdout with
      | none => .error "unparsable output"
      | some _ => r
    else r
  | .error e => .error e

/-! ## Session state (`src/app.rs`) -/

/-- `AppState` from `src/app.rs`, together with the `HelpMenu` variant that
`src/main.rs` assigns and matches (`app.state = AppState::HelpMenu`); the
enum declaration in `src/app.rs` omits it, an evident slip, so the union of
the two files' variants is modelled. -/
inductive AppState where
  | normal | packageView | createEnvironment | deleteEnvironment
  | installPackage | uninstallPackage | searchEnvironment | helpMenu
  deriving DecidableEq

/-- `DialogState` from `src/app.rs`. -/
inductive DialogState where
  | noDialog | confirm
  deriving DecidableEq

/-- `Focus` from `src/app.rs`. -/
inductive Focus where
  | environments | packages
  deriving DecidableEq

/-- `App` from `src/app.rs`; `status_message_timer: u8` is a `Nat` reduced
mod 256 where incremented. -/
structure App where
  state : AppState
  dialog_state : DialogState
  environments : List PythonEnvironment
  selected_environment : Option Nat
  packages : List Package
  selected_package : Option Nat
  focus : Focus
  input_text : String
  status_message : Option String
  status_message_timer : Nat
  show_global_packages : Bool
  deriving DecidableEq

/-- `App::new`. -/
def App.new : App where
  state := .normal
  dialog_state := .noDialog
  environments := []
  selected_environment := none
  packages := []
  selected_package := none
  focus := .environments
  input_text := ""
  status_message := none
  status_message_timer := 0
  show_global_packages := false

/-- `App::next_environment`: circular successor on the environment list, only
when that list has focus; no effect on an empty list. -/
def App.next_environment (a : App) : App :=
  if a.focus ≠ .environments then a
  else
    let len := a.environments.length
    if 0 < len then
      { a with selected_environment :=
          match a.selected_environment with
          | some i => some ((i + 1) % len)
          | none => some 0 }
    else a

/-- `App::previous_environment`. -/
def App.previous_environment (a : App) : App :=
  if a.focus ≠ .environments then a
  else
    let len := a.environments.length
    if 0 < len then
      { a with selected_environment :=
          match a.selected_environment with
          | some i => some ((i + len - 1) % len)
          | none => some (len - 1) }
    else a

/-- `App::next_package`. -/
def App.next_package (a : App) : App :=
  if a.focus ≠ .packages then a
  else
    let len := a.packages.length
    if 0 < len then
      { a with selected_package :=
          match a.selected_package with
          | some i => some ((i + 1) % len)
          | none => some 0 }
    else a

/-- `App::previous_package`. -/
def App.previous_package (a : App) : App :=
  if a.focus ≠ .packages then a
  else
    let len := a.packages.length
    if 0 < len then
      { a with selected_package :=
          match a.selected_package with
          | some i => some ((i + len - 1) % len)
          | none => some (len - 1) }
    else a

/-- `App::toggle_focus`: move focus to the other list; clear its selection if
it is empty, select its first element if it had no selection yet. -/
def App.toggle_focus (a : App) : App :=
  match a.focus with
  | .environments =>
    let a := { a with focus := .packages }
    if a.packages.isEmpty then { a with selected_package := none }
    else if a.selected_package = none then { a with selected_package := some 0 }
    else a
  | .packages =>
    let a := { a with focus := .environments }
    if a.environments.isEmpty then { a with selected_environment := none }
    else if a.selected_environment = none then { a with selected_environment := some 0 }
    else a

/-! ## The control loop (`src/main.rs`) -/

/-- Outcomes the `src/python.rs` calls deliver to one iteration of the event
loop; the loop treats these synchronous external invocations as a black box,
so they enter the step function as an oracle. -/
structure Oracle where
  listEnvironments : Except String (List PythonEnvironment)
  listPackages : String → Except String (List Package)
  listGlobalPackages : Except String (List Package)
  createEnvironment : String → Except String PythonEnvironment
  deleteEnvironment : String → Except String Unit
  installPackage : String → String → Except String Unit
  uninstallPackage : String → String → Except String Unit

/-- The key events the loop distinguishes (`crossterm` key codes; `Char('c')`
with CONTROL only breaks the loop, like `Char('q')`, so it needs no separate
constructor — a break leaves the state unchanged). -/
inductive Key where
  | down | up | tab | enter | backspace | esc
  | char (c : Char)
  deriving DecidableEq

/-- The `match list_packages(...)` pattern repeated at every package (re)load
site of `src/main.rs`: store the result, select index 0 only when non-empty,
or post the listing error. -/
def applyPkgResult (a : App) (r : Except String (List Package)) : App :=
  match r with
  | .ok pkgs =>
    if pkgs.isEmpty then { a with packages := pkgs }
    else { a with packages := pkgs, selected_package := some 0 }
  | .error e => { a with status_message := some ("Error listing packages: " ++ e) }

/-- The `KeyCode::Char('g')` handler: flip the global view, then re-query
either the machine-wide listing (with its own error text) or the selected
environment's listing; indexing a stale selection beyond the list panics
(`none`). -/
def toggleGlobalStep (o : Oracle) (a : App) : Option App :=
  let a := { a with show_global_packages := !a.show_global_packages }
  if a.show_global_packages then
    some (match o.listGlobalPackages with
      | .ok pkgs =>
        if pkgs.isEmpty then { a with packages := pkgs }
        else { a with packages := pkgs, selected_package := some 0 }
      | .error e =>
        { a with status_message := some ("Error listing global packages: " ++ e) })
  else
    match a.selected_environment with
    | some idx =>
      match a.environments[idx]? with
      | some env => some (applyPkgResult a (o.listPackages env.path))
      | none => none
    | none => some a

/-- The `KeyCode::Char('R')` refresh handler: replace the environment list
wholesale; only when the new list is non-empty reset the selection to 0 and
post the refreshed status — an empty result keeps the stale selection. -/
def refreshStep (o : Oracle) (a : App) : App :=
  match o.listEnvironments with
  | .ok envs =>
    let a := { a with environments := envs }
    if a.environments.isEmpty then a
    else { a with selected_environment := some 0,
                  status_message := some "Environments refreshed" }
  | .error e =>
    { a with status_message := some ("Error refreshing environments: " ++ e) }

/-- The `Enter` handler of `AppState::Normal`: load the selected environment's
packages. -/
def enterNormalStep (o : Oracle) (a : App) : Option App :=
  match a.selected_environment with
  | some idx =>
    match a.environments[idx]? with
    | some env => some (applyPkgResult a (o.listPackages env.path))
    | none => none
  | none => some a

/-- The `Enter` handler of `AppState::CreateEnvironment` (non-empty input):
push the created environment, select it, reload its packages, then return to
normal state with the success status (overwriting any listing-error status,
as the source's assignment order does).  On failure only the error status is
posted — the source leaves the state in `CreateEnvironment`. -/
def createEnterStep (o : Oracle) (a : App) : Option App :=
  if a.input_text ≠ "" then
    match o.createEnvironment a.input_text with
    | .ok env =>
      let a1 := { a with environments := a.environments ++ [env] }
      let a2 := { a1 with selected_environment := some (a1.environments.length - 1) }
      match a2.environments[a2.environments.length - 1]? with
      | some e =>
        let a3 := applyPkgResult a2 (o.listPackages e.path)
        some { a3 with state := .normal,
                       status_message :=
                         some ("Environment '" ++ a.input_text ++ "' created successfully") }
      | none => none
    | .error e =>
      some { a with status_message := some ("Error creating environment: " ++ e) }
  else some a

/-- The `Char('y')` handler of `AppState::DeleteEnvironment`: delete the
selected environment's tree, drop it from the list, clamp or clear the
selection, reload the now-selected environment's packages, and post the
status; state and dialog return to normal afterwards in every case. -/
def deleteYesStep (o : Oracle) (a : App) : Option App :=
  let r : Option App :=
    match a.selected_environment with
    | some idx =>
      match a.environments[idx]? with
      | some env =>
        match o.deleteEnvironment env.path with
        | .ok _ =>
          let a1 := { a with environments := a.environments.eraseIdx idx }
          let a2h : Option App :=
            if a1.environments.isEmpty then
              some { a1 with selected_environment := none, packages := [] }
            else
              let sel := min idx (a1.environments.length - 1)
              let a1b := { a1 with selected_environment := some sel }
              match a1b.environments[sel]? with
              | some e2 => some (applyPkgResult a1b (o.listPackages e2.path))
              | none => none
          let doneMsg := "Environment '" ++ env.name ++ "' deleted successfully"
          a2h.map fun a2 => { a2 with status_message := some doneMsg }
        | .error e =>
          some { a with status_message := some ("Error deleting environment: " ++ e) }
      | none => none
    | none => some a
  r.map fun x => { x with state := .normal, dialog_state := .noDialog }

/-- The `Enter` handler of `AppState::InstallPackage`: with a non-empty name
and a selection, install into the selected environment, reload its packages
and post the status; the state returns to normal in every case. -/
def installEnterStep (o : Oracle) (a : App) : Option App :=
  let r : Option App :=
    if a.input_text ≠ "" ∧ a.selected_environment.isSome then
      match a.selected_environment with
      | some idx =>
        match a.environments[idx]? with
        | some env =>
          match o.installPackage env.path a.input_text with
          | .ok _ =>
            let a1 := applyPkgResult a (o.listPackages env.path)
            let okMsg := "Package '" ++ a.input_text ++ "' installed successfully"
            some { a1 with status_message := some okMsg }
          | .error e =>
            some { a with status_message := some ("Error installing package: " ++ e) }
        | none => none
      | none => none
    else some a
  r.map fun x => { x with state := .normal }

/-- The `Char('y')` handler of `AppState::UninstallPackage`: with a selected
environment and an in-bounds selected package, uninstall it, reload the
package list (clamping the package selection with a saturating decrement) and
post the status; state and dialog return to normal in every case. -/
def uninstallYesStep (o : Oracle) (a : App) : Option App :=
  let r : Option App :=
    match a.selected_environment, a.selected_package with
    | some envIdx, some pkgIdx =>
      if pkgIdx < a.packages.length then
        match a.environments[envIdx]? with
        | some env =>
          match (a.packages[pkgIdx]?).map Package.name with
          | some pkgName =>
            match o.uninstallPackage env.path pkgName with
            | .ok _ =>
              let a1 :=
                match o.listPackages env.path with
                | .ok pkgs =>
                  { a with packages := pkgs,
                           selected_package := some (min pkgIdx (pkgs.length - 1)) }
                | .error e =>
                  { a with status_message := some ("Error listing packages: " ++ e) }
              let okMsg := "Package '" ++ pkgName ++ "' uninstalled successfully"
              some { a1 with status_message := some okMsg }
            | .error e =>
              some { a with status_message := some ("Error uninstalling package: " ++ e) }
          | none => none
        | none => none
      else some a
    | _, _ => some a
  r.map fun x => { x with state := .normal, dialog_state := .noDialog }

/-- The index/environment pairs the search filter keeps: case-insensitive
substring match of the query against name or path, in list order. -/
def searchMatches (q : String) (envs : List PythonEnvironment) : List Nat :=
  ((envs.enum.filter fun p =>
      strContains (lowerString p.2.name) q || strContains (lowerString p.2.path) q).map
    fun p => p.1)

/-- The `Enter` handler of `AppState::SearchEnvironment` (non-empty input):
select the first match and load its packages, posting the match count, or
post the no-match status; the state returns to normal in every case. -/
def searchEnterStep (o : Oracle) (a : App) : Option App :=
  let r : Option App :=
    if a.input_text ≠ "" then
      let searchTerm := lowerString a.input_text
      let filtered := searchMatches searchTerm a.environments
      match filtered with
      | [] => some { a with status_message := some "No matching environments found" }
      | i :: _ =>
        match a.environments[i]? with
        | some env =>
          let a1 := { a with selected_environment := some i }
          let a2 := applyPkgResult a1 (o.listPackages env.path)
          let foundMsg := "Found " ++ toString filtered.length ++ " matching environments"
          some { a2 with status_message := some foundMsg }
        | none => none
    else some a
  r.map fun x => { x with state := .normal }

/-- One key event of the main loop of `src/main.rs`, dispatched on the
current state exactly as the nested `match` there; `none` models a Rust
panic (an out-of-bounds `Vec` index on a stale selection).  `Char('q')` and
ctrl-`c` break the loop without touching the state, so they are identity
here. -/
def stepKey (o : Oracle) (a : App) (k : Key) : Option App :=
  match a.state with
  | .normal =>
    match k with
    | .down =>
      some (match a.focus with
        | .environments => a.next_environment
        | .packages => a.next_package)
    | .up =>
      some (match a.focus with
        | .environments => a.previous_environment
        | .packages => a.previous_package)
    | .tab => some a.toggle_focus
    | .enter => enterNormalStep o a
    | .char c =>
      if c = 'q' then some a
      else if c = 'n' then some { a with state := .createEnvironment, input_text := "" }
      else if c = 'd' then
        some (match a.selected_environment with
          | some _ => { a with state := .deleteEnvironment, dialog_state := .confirm }
          | none => a)
      else if c = 'i' then
        some (if a.selected_environment.isSome then
          { a with state := .installPackage, input_text := "" }
        else a)
      else if c = 'r' then
        some (match a.selected_environment, a.selected_package with
          | some _, some pkgIdx =>
            if pkgIdx < a.packages.length then
              { a with state := .uninstallPackage, dialog_state := .confirm }
            else a
          | _, _ => a)
      else if c = 's' then some { a with state := .searchEnvironment, input_text := "" }
      else if c = 'g' then toggleGlobalStep o a
      else if c = 'R' then some (refreshStep o a)
      else if c = 'x' then some { a with state := .helpMenu }
      else some a
    | _ => some a
  | .packageView =>
    match k with
    | .down => some a.next_package
    | .up => some a.previous_package
    | .tab => some a.toggle_focus
    | .esc => some { a with state := .normal }
    | .char c =>
      if c = 'q' then some a
      else if c = 'i' then
        some (if a.selected_environment.isSome then
          { a with state := .installPackage, input_text := "" }
        else a)
      else if c = 'r' then
        some (match a.selected_environment, a.selected_package with
          | some _, some pkgIdx =>
            if pkgIdx < a.packages.length then
              { a with state := .uninstallPackage, dialog_state := .confirm }
            else a
          | _, _ => a)
      else if c = 'x' then some { a with state := .helpMenu }
      else some a
    | _ => some a
  | .helpMenu =>
    match k with
    | .esc => some { a with state := .normal }
    | .char c => if c = 'x' then some { a with state := .normal } else some a
    | _ => some a
  | .createEnvironment =>
    match k with
    | .esc => some { a with state := .normal }
    | .enter => createEnterStep o a
    | .char c => some { a with input_text := a.input_text.push c }
    | .backspace => some { a with input_text := a.input_text.dropRight 1 }
    | _ => some a
  | .deleteEnvironment =>
    match k with
    | .esc => some { a with state := .normal, dialog_state := .noDialog }
    | .char c =>
      if c = 'y' then deleteYesStep o a
      else if c = 'n' then some { a with state := .normal, dialog_state := .noDialog }
      else some a
    | _ => some a
  | .installPackage =>
    match k with
    | .esc => some { a with state := .normal }
    | .enter => installEnterStep o a
    | .char c => some { a with input_text := a.input_text.push c }
    | .backspace => some { a with input_text := a.input_text.dropRight 1 }
    | _ => some a
  | .uninstallPackage =>
    match k with
    | .esc => some { a with state := .normal, dialog_state := .noDialog }
    | .char c =>
      if c = 'y' then uninstallYesStep o a
      else if c = 'n' then some { a with state := .normal, dialog_state := .noDialog }
      else some a
    | _ => some a
  | .searchEnvironment =>
    match k with
    | .esc => some { a with state := .normal }
    | .enter => searchEnterStep o a
    | .char c => some { a with input_text := a.input_text.push c }
    | .backspace => some { a with input_text := a.input_text.dropRight 1 }
    | _ => some a

/-- The tick branch at the bottom of the loop: with an active status, bump
the `u8` elapsed counter and clear message and counter once it exceeds 20. -/
def tickStep (a : App) : App :=
  match a.status_message with
  | some _ =>
    let t := (a.status_message_timer + 1) % 256
    if t > 20 then { a with status_message := none, status_message_timer := 0 }
    else { a with status_message_timer := t }
  | none => a

/-- One loop iteration's externally visible stimulus: a key event together
with the outcomes the external tools would deliver during it, or a tick of
the status-decay clock. -/
inductive Ev where
  | key (o : Oracle) (k : Key)
  | tick

/-- Apply one stimulus. -/
def applyEv (a : App) : Ev → Option App
  | .key o k => stepKey o a k
  | .tick => some (tickStep a)

/-- Run a stimulus sequence from a state; `none` models the Rust program
panicking along the way. -/
def runEvents (a : App) : List Ev → Option App
  | [] => some a
  | e :: es =>
    match applyEv a e with
    | some a' => runEvents a' es
    | none => none

/-! ## General helper lemmas -/

theorem App.update_sel_env_eq (a : App) {s : Option Nat}
    (h : a.selected_environment = s) : { a with selected_environment := s } = a := by
  cases a; subst h; rfl

theorem App.update_sel_pkg_eq (a : App) {s : Option Nat}
    (h : a.selected_package = s) : { a with selected_package := s } = a := by
  cases a; subst h; rfl

theorem next_environment_iter (a : App) (L i k : Nat)
    (hfoc : a.focus = Focus.environments) (hL : a.environments.length = L)
    (hpos : 0 < L) (hsel : a.selected_environment = some i) (hi : i < L) :
    (App.next_environment)^[k] a = { a with selected_environment := some ((i + k) % L) } := by
  induction k generalizing a i with
  | zero =>
    simp only [Function.iterate_zero, id_eq]
    have hm : (i + 0) % L = i := by
      simpa using Nat.mod_eq_of_lt hi
    rw [hm]
    exact (App.update_sel_env_eq a hsel).symm
  | succ k ih =>
    rw [Function.iterate_succ_apply]
    have hnext : a.next_environment = { a with selected_environment := some ((i + 1) % L) } := by
      unfold App.next_environment
      rw [if_neg (by simp [hfoc]), hL, if_pos hpos, hsel]
    rw [hnext]
    have h2 := ih { a with selected_environment := some ((i + 1) % L) } ((i + 1) % L)
      hfoc hL rfl (Nat.mod_lt _ hpos)
    rw [h2]
    have hm : ((i + 1) % L + k) % L = (i + (k + 1)) % L := by
      rw [Nat.mod_add_mod]; ring_nf
    rw [hm]

theorem next_package_iter (a : App) (L i k : Nat)
    (hfoc : a.focus = Focus.packages) (hL : a.packages.length = L)
    (hpos : 0 < L) (hsel : a.selected_package = some i) (hi : i < L) :
    (App.next_package)^[k] a = { a with selected_package := some ((i + k) % L) } := by
  induction k generalizing a i with
  | zero =>
    simp only [Function.iterate_zero, id_eq]
    have hm : (i + 0) % L = i := by
      simpa using Nat.mod_eq_of_lt hi
    rw [hm]
    exact (App.update_sel_pkg_eq a hsel).symm
  | succ k ih =>
    rw [Function.iterate_succ_apply]
    have hnext : a.next_package = { a with selected_package := some ((i + 1) % L) } := by
      unfold App.next_package
      rw [if_neg (by simp [hfoc]), hL, if_pos hpos, hsel]
    rw [hnext]
    have h2 := ih { a with selected_package := some ((i + 1) % L) } ((i + 1) % L)
      hfoc hL rfl (Nat.mod_lt _ hpos)
    rw [h2]
    have hm : ((i + 1) % L + k) % L = (i + (k + 1)) % L := by
      rw [Nat.mod_add_mod]; ring_nf
    rw [hm]

theorem succ_mod_pred_cancel (L i : Nat) (hpos : 0 < L) (hi : i < L) :
    ((i + 1) % L + L - 1) % L = i := by
  rcases Nat.lt_or_ge (i + 1) L with h | h
  · rw [Nat.mod_eq_of_lt h]
    have h1 : i + 1 + L - 1 = i + L := by omega
    rw [h1, Nat.add_mod_right, Nat.mod_eq_of_lt hi]
  · have hiL : i + 1 = L := by omega
    have h0 : (i + 1) % L = 0 := by rw [hiL]; exact Nat.mod_self L
    rw [h0]
    have h1 : 0 + L - 1 = L - 1 := by omega
    rw [h1, Nat.mod_eq_of_lt (by omega)]
    omega

/-- C9: on the focused non-empty list of length `L`, next-navigation maps the
selected index `i` to `(i+1) % L` and previous-navigation to `(i+L-1) % L`;
`L` applications of next return to the start, next followed by previous is the
identity on the whole session state, and on an empty list both operations
leave the state (in particular a `none` selection) unchanged — for the
environment list and the package list alike. -/
theorem claim9_navigation_cycles (a : App) (L i : Nat) :
    (a.focus = Focus.environments → a.environments.length = L → 0 < L →
      a.selected_environment = some i → i < L →
      a.next_environment.selected_environment = some ((i + 1) % L) ∧
      a.previous_environment.selected_environment = some ((i + L - 1) % L) ∧
      (App.next_environment)^[L] a = a ∧
      a.next_environment.previous_environment = a) ∧
    (a.environments = [] → a.next_environment = a ∧ a.previous_environment = a) ∧
    (a.focus = Focus.packages → a.packages.length = L → 0 < L →
      a.selected_package = some i → i < L →
      a.next_package.selected_package = some ((i + 1) % L) ∧
      a.previous_package.selected_package = some ((i + L - 1) % L) ∧
      (App.next_package)^[L] a = a ∧
      a.next_package.previous_package = a) ∧
    (a.packages = [] → a.next_package = a ∧ a.previous_package = a) := by
  refine ⟨fun hfoc hL hpos hsel hi => ?_, fun hemp => ?_,
    fun hfoc hL hpos hsel hi => ?_, fun hemp => ?_⟩
  · have hnext : a.next_environment = { a with selected_environment := some ((i + 1) % L) } := by
      unfold App.next_environment
      rw [if_neg (by simp [hfoc]), hL, if_pos hpos, hsel]
    have hprev : a.previous_environment =
        { a with selected_environment := some ((i + L - 1) % L) } := by
      unfold App.previous_environment
      rw [if_neg (by simp [hfoc]), hL, if_pos hpos, hsel]
    refine ⟨by rw [hnext], by rw [hprev], ?_, ?_⟩
    · rw [next_environment_iter a L i L hfoc hL hpos hsel hi,
        Nat.add_mod_right, Nat.mod_eq_of_lt hi]
      exact App.update_sel_env_eq a hsel
    · rw [hnext]
      unfold App.previous_environment
      rw [if_neg (by simp [hfoc]), hL, if_pos hpos]
      simp only []
      rw [succ_mod_pred_cancel L i hpos hi]
      exact App.update_sel_env_eq a hsel
  · constructor
    · unfold App.next_environment
      rw [hemp]; simp
    · unfold App.previous_environment
      rw [hemp]; simp
  · have hnext : a.next_package = { a with selected_package := some ((i + 1) % L) } := by
      unfold App.next_package
      rw [if_neg (by simp [hfoc]), hL, if_pos hpos, hsel]
    have hprev : a.previous_package =
        { a with selected_package := some ((i + L - 1) % L) } := by
      unfold App.previous_package
      rw [if_neg (by simp [hfoc]), hL, if_pos hpos, hsel]
    refine ⟨by rw [hnext], by rw [hprev], ?_, ?_⟩
    · rw [next_package_iter a L i L hfoc hL hpos hsel hi,
        Nat.add_mod_right, Nat.mod_eq_of_lt hi]
      exact App.update_sel_pkg_eq a hsel
    · rw [hnext]
      unfold App.previous_package
      rw [if_neg (by simp [hfoc]), hL, if_pos hpos]
      simp only []
      rw [succ_mod_pred_cancel L i hpos hi]
      exact App.update_sel_pkg_eq a hsel
  · constructor
    · unfold App.next_package
      rw [hemp]; simp
    · unfold App.previous_package
      rw [hemp]; simp

/-- C10: when the operator confirms a deletion and `delete_environment`
fails, the only in-memory change is the posted error status — environment
list, package list, both selections, input text and every other field keep
their prior values, and the mode returns to the browse (`Normal`) state with
the dialog dismissed. -/
theorem claim10_delete_error_frame (o : Oracle) (a : App) (idx : Nat)
    (env : PythonEnvironment) (e : String)
    (hstate : a.state = AppState.deleteEnvironment)
    (hsel : a.selected_environment = some idx)
    (hget : a.environments[idx]? = some env)
    (hdel : o.deleteEnvironment env.path = .error e) :
    stepKey o a (.char 'y') =
      some { a with state := .normal, dialog_state := .noDialog,
                    status_message := some ("Error deleting environment: " ++ e) } := by
  unfold stepKey deleteYesStep
  rw [hstate]
  simp [hsel, hget, hdel]

/-- Witness for C10 at a concrete session state and oracle. -/
theorem claim10_delete_error_frame_witness :
    stepKey
      { listEnvironments := .ok [], listPackages := fun _ => .ok [],
        listGlobalPackages := .ok [], createEnvironment := fun _ => .error "x",
        deleteEnvironment := fun _ => .error "disk failure",
        installPackage := fun _ _ => .ok (), uninstallPackage := fun _ _ => .ok () }
      { App.new with state := .deleteEnvironment, dialog_state := .confirm,
                     environments := [⟨"e1", "/h/e1", "3.11", "venv"⟩],
                     selected_environment := some 0 }
      (.char 'y') =
    some { App.new with state := .normal, dialog_state := .noDialog,
                        environments := [⟨"e1", "/h/e1", "3.11", "venv"⟩],
                        selected_environment := some 0,
                        status_message := some "Error deleting environment: disk failure" } :=
  claim10_delete_error_frame _ _ 0 ⟨"e1", "/h/e1", "3.11", "venv"⟩ "disk failure"
    rfl rfl rfl rfl

/-! ## Selection invariant machinery (for the reachability claims) -/

/-- Core selection condition relating a stored optional index to the length of
the list it indexes: whenever the list is non-empty the selection must be a
valid index, and a `none` selection forces an empty list.  (An empty list may
carry any stale selection — that is exactly the slack the session leaves.) -/
def selInvF (sel : Option Nat) (n : Nat) : Bool :=
  match sel with
  | none => n == 0
  | some i => n == 0 || decide (i < n)

/-- The invariant on the environment side. -/
def envSelInvB (a : App) : Bool := selInvF a.selected_environment a.environments.length

/-- The invariant on the package side. -/
def pkgSelInvB (a : App) : Bool := selInvF a.selected_package a.packages.length

/-- Both selection invariants. -/
def SelInvB (a : App) : Bool := envSelInvB a && pkgSelInvB a

theorem selInvF_zero (sel : Option Nat) : selInvF sel 0 = true := by
  cases sel <;> rfl

theorem selInvF_some (i n : Nat) (h : i < n) : selInvF (some i) n = true := by
  simp [selInvF, h]

theorem SelInvB_parts {a : App} (h : SelInvB a = true) :
    envSelInvB a = true ∧ pkgSelInvB a = true := by
  unfold SelInvB at h
  simp only [Bool.and_eq_true] at h
  exact h

theorem SelInvB_build {a : App} (h1 : envSelInvB a = true) (h2 : pkgSelInvB a = true) :
    SelInvB a = true := by
  unfold SelInvB
  simp only [Bool.and_eq_true]
  exact ⟨h1, h2⟩

theorem applyPkgResult_frame (a : App) (r : Except String (List Package)) :
    (applyPkgResult a r).status_message_timer = a.status_message_timer ∧
    (applyPkgResult a r).environments = a.environments ∧
    (applyPkgResult a r).selected_environment = a.selected_environment ∧
    (applyPkgResult a r).state = a.state ∧
    (applyPkgResult a r).dialog_state = a.dialog_state ∧
    (pkgSelInvB a = true → pkgSelInvB (applyPkgResult a r) = true) := by
  unfold applyPkgResult
  cases r with
  | error e => exact ⟨rfl, rfl, rfl, rfl, rfl, fun h => h⟩
  | ok pkgs =>
    dsimp only
    by_cases hp : pkgs.isEmpty
    · refine ⟨by rw [if_pos hp], by rw [if_pos hp], by rw [if_pos hp],
        by rw [if_pos hp], by rw [if_pos hp], fun _ => ?_⟩
      rw [if_pos hp]
      show selInvF a.selected_package pkgs.length = true
      have : pkgs.length = 0 := by simpa using hp
      rw [this]
      exact selInvF_zero _
    · refine ⟨by rw [if_neg hp], by rw [if_neg hp], by rw [if_neg hp],
        by rw [if_neg hp], by rw [if_neg hp], fun _ => ?_⟩
      rw [if_neg hp]
      show selInvF (some 0) pkgs.length = true
      refine selInvF_some 0 _ ?_
      cases pkgs with
      | nil => simp at hp
      | cons x xs => simp

theorem applyPkgResult_SelInv (a : App) (r : Except String (List Package))
    (h : SelInvB a = true) : SelInvB (applyPkgResult a r) = true := by
  have hf := applyPkgResult_frame a r
  refine SelInvB_build ?_ (hf.2.2.2.2.2 (SelInvB_parts h).2)
  show selInvF (applyPkgResult a r).selected_environment
    (applyPkgResult a r).environments.length = true
  rw [hf.2.2.1, hf.2.1]
  exact (SelInvB_parts h).1

theorem next_environment_frame (a : App) :
    a.next_environment.status_message_timer = a.status_message_timer ∧
    (SelInvB a = true → SelInvB a.next_environment = true) := by
  unfold App.next_environment
  by_cases hf : a.focus ≠ Focus.environments
  · rw [if_pos hf]; exact ⟨rfl, fun h => h⟩
  · rw [if_neg hf]
    dsimp only
    by_cases hl : 0 < a.environments.length
    · rw [if_pos hl]
      refine ⟨rfl, fun h => ?_⟩
      refine SelInvB_build ?_ (SelInvB_parts h).2
      show selInvF (match a.selected_environment with
        | some i => some ((i + 1) % a.environments.length)
        | none => some 0) a.environments.length = true
      rcases a.selected_environment with _ | i
      · exact selInvF_some 0 _ hl
      · exact selInvF_some _ _ (Nat.mod_lt _ hl)
    · rw [if_neg hl]; exact ⟨rfl, fun h => h⟩

theorem previous_environment_frame (a : App) :
    a.previous_environment.status_message_timer = a.status_message_timer ∧
    (SelInvB a = true → SelInvB a.previous_environment = true) := by
  unfold App.previous_environment
  by_cases hf : a.focus ≠ Focus.environments
  · rw [if_pos hf]; exact ⟨rfl, fun h => h⟩
  · rw [if_neg hf]
    dsimp only
    by_cases hl : 0 < a.environments.length
    · rw [if_pos hl]
      refine ⟨rfl, fun h => ?_⟩
      refine SelInvB_build ?_ (SelInvB_parts h).2
      show selInvF (match a.selected_environment with
        | some i => some ((i + a.environments.length - 1) % a.environments.length)
        | none => some (a.environments.length - 1)) a.environments.length = true
      rcases a.selected_environment with _ | i
      · exact selInvF_some _ _ (by omega)
      · exact selInvF_some _ _ (Nat.mod_lt _ hl)
    · rw [if_neg hl]; exact ⟨rfl, fun h => h⟩

theorem next_package_frame (a : App) :
    a.next_package.status_message_timer = a.status_message_timer ∧
    (SelInvB a = true → SelInvB a.next_package = true) := by
  unfold App.next_package
  by_cases hf : a.focus ≠ Focus.packages
  · rw [if_pos hf]; exact ⟨rfl, fun h => h⟩
  · rw [if_neg hf]
    dsimp only
    by_cases hl : 0 < a.packages.length
    · rw [if_pos hl]
      refine ⟨rfl, fun h => ?_⟩
      refine SelInvB_build (SelInvB_parts h).1 ?_
      show selInvF (match a.selected_package with
        | some i => some ((i + 1) % a.packages.length)
        | none => some 0) a.packages.length = true
      rcases a.selected_package with _ | i
      · exact selInvF_some 0 _ hl
      · exact selInvF_some _ _ (Nat.mod_lt _ hl)
    · rw [if_neg hl]; exact ⟨rfl, fun h => h⟩

theorem previous_package_frame (a : App) :
    a.previous_package.status_message_timer = a.status_message_timer ∧
    (SelInvB a = true → SelInvB a.previous_package = true) := by
  unfold App.previous_package
  by_cases hf : a.focus ≠ Focus.packages
  · rw [if_pos hf]; exact ⟨rfl, fun h => h⟩
  · rw [if_neg hf]
    dsimp only
    by_cases hl : 0 < a.packages.length
    · rw [if_pos hl]
      refine ⟨rfl, fun h => ?_⟩
      refine SelInvB_build (SelInvB_parts h).1 ?_
      show selInvF (match a.selected_package with
        | some i => some ((i + a.packages.length - 1) % a.packages.length)
        | none => some (a.packages.length - 1)) a.packages.length = true
      rcases a.selected_package with _ | i
      · exact selInvF_some _ _ (by omega)
      · exact selInvF_some _ _ (Nat.mod_lt _ hl)
    · rw [if_neg hl]; exact ⟨rfl, fun h => h⟩

theorem toggle_focus_frame (a : App) :
    a.toggle_focus.status_message_timer = a.status_message_timer ∧
    (SelInvB a = true → SelInvB a.toggle_focus = true) := by
  unfold App.toggle_focus
  rcases hf : a.focus
  · dsimp only
    by_cases hp : a.packages.isEmpty
    · rw [if_pos hp]
      refine ⟨rfl, fun h => ?_⟩
      refine SelInvB_build (SelInvB_parts h).1 ?_
      show selInvF none a.packages.length = true
      have : a.packages.length = 0 := by simpa using hp
      rw [this]; exact selInvF_zero _
    · rw [if_neg hp]
      by_cases hs : a.selected_package = none
      · rw [if_pos hs]
        refine ⟨rfl, fun h => ?_⟩
        refine SelInvB_build (SelInvB_parts h).1 ?_
        show selInvF (some 0) a.packages.length = true
        refine selInvF_some 0 _ ?_
        cases hpk : a.packages with
        | nil => rw [hpk] at hp; simp at hp
        | cons x xs => simp
      · rw [if_neg hs]
        exact ⟨rfl, fun h => h⟩
  · dsimp only
    by_cases hp : a.environments.isEmpty
    · rw [if_pos hp]
      refine ⟨rfl, fun h => ?_⟩
      refine SelInvB_build ?_ (SelInvB_parts h).2
      show selInvF none a.environments.length = true
      have : a.environments.length = 0 := by simpa using hp
      rw [this]; exact selInvF_zero _
    · rw [if_neg hp]
      by_cases hs : a.selected_environment = none
      · rw [if_pos hs]
        refine ⟨rfl, fun h => ?_⟩
        refine SelInvB_build ?_ (SelInvB_parts h).2
        show selInvF (some 0) a.environments.length = true
        refine selInvF_some 0 _ ?_
        cases hpk : a.environments with
        | nil => rw [hpk] at hp; simp at hp
        | cons x xs => simp
      · rw [if_neg hs]
        exact ⟨rfl, fun h => h⟩

theorem tickStep_SelInv (a : App) : SelInvB (tickStep a) = SelInvB a := by
  unfold tickStep
  rcases a.status_message with _ | m
  · rfl
  · dsimp only
    by_cases ht : (a.status_message_timer + 1) % 256 > 20
    · rw [if_pos ht]; rfl
    · rw [if_neg ht]; rfl

theorem refreshStep_frame (o : Oracle) (a : App) :
    (refreshStep o a).status_message_timer = a.status_message_timer ∧
    (SelInvB a = true → SelInvB (refreshStep o a) = true) := by
  unfold refreshStep
  rcases o.listEnvironments with e | envs
  · exact ⟨rfl, fun h => h⟩
  · dsimp only
    by_cases he : envs.isEmpty
    · rw [if_pos he]
      refine ⟨rfl, fun h => ?_⟩
      refine SelInvB_build ?_ (SelInvB_parts h).2
      show selInvF a.selected_environment envs.length = true
      have : envs.length = 0 := by simpa using he
      rw [this]; exact selInvF_zero _
    · rw [if_neg he]
      refine ⟨rfl, fun h => ?_⟩
      refine SelInvB_build ?_ (SelInvB_parts h).2
      show selInvF (some 0) envs.length = true
      refine selInvF_some 0 _ ?_
      cases envs with
      | nil => simp at he
      | cons x xs => simp

theorem getElem?_lt {α : Type} {l : List α} {i : Nat} {x : α}
    (h : l[i]? = some x) : i < l.length := by
  rw [List.getElem?_eq_some] at h
  exact h.1

theorem enterNormalStep_frame (o : Oracle) (a a' : App)
    (h : enterNormalStep o a = some a') :
    a'.status_message_timer = a.status_message_timer ∧
    (SelInvB a = true → SelInvB a' = true) := by
  unfold enterNormalStep at h
  rcases hs : a.selected_environment with _ | idx <;> rw [hs] at h <;> dsimp only at h
  · cases h; exact ⟨rfl, fun hi => hi⟩
  · rcases hg : a.environments[idx]? with _ | env <;> rw [hg] at h <;> dsimp only at h
    · cases h
    · cases h
      exact ⟨(applyPkgResult_frame a _).1, fun hi => applyPkgResult_SelInv a _ hi⟩

theorem toggleGlobalStep_frame (o : Oracle) (a a' : App)
    (h : toggleGlobalStep o a = some a') :
    a'.status_message_timer = a.status_message_timer ∧
    (SelInvB a = true → SelInvB a' = true) := by
  unfold toggleGlobalStep at h
  by_cases hb : a.show_global_packages
  · simp only [hb] at h
    rcases hs : a.selected_environment with _ | idx <;> rw [hs] at h <;> dsimp only at h
    · cases h
      exact ⟨rfl, fun hi => SelInvB_build (hs ▸ (SelInvB_parts hi).1) (SelInvB_parts hi).2⟩
    · rcases hg : a.environments[idx]? with _ | env <;> rw [hg] at h <;> dsimp only at h
      · cases h
      · cases h
        refine ⟨(applyPkgResult_frame _ _).1, fun hi => ?_⟩
        refine applyPkgResult_SelInv _ _ ?_
        exact SelInvB_build (hs ▸ (SelInvB_parts hi).1) (SelInvB_parts hi).2
  · have hb' : a.show_global_packages = false := by simpa using hb
    simp only [hb'] at h
    rcases hr : o.listGlobalPackages with e | pkgs <;> rw [hr] at h <;> dsimp only at h
    · cases h; exact ⟨rfl, fun hi => hi⟩
    · by_cases hp : pkgs.isEmpty
      · rw [if_pos hp] at h
        cases h
        refine ⟨rfl, fun hi => ?_⟩
        refine SelInvB_build (SelInvB_parts hi).1 ?_
        show selInvF a.selected_package pkgs.length = true
        have : pkgs.length = 0 := by simpa using hp
        rw [this]; exact selInvF_zero _
      · rw [if_neg hp] at h
        cases h
        refine ⟨rfl, fun hi => ?_⟩
        refine SelInvB_build (SelInvB_parts hi).1 ?_
        show selInvF (some 0) pkgs.length = true
        refine selInvF_some 0 _ ?_
        cases pkgs with
        | nil => simp at hp
        | cons x xs => simp

theorem createEnterStep_frame (o : Oracle) (a a' : App)
    (h : createEnterStep o a = some a') :
    a'.status_message_timer = a.status_message_timer ∧
    (SelInvB a = true → SelInvB a' = true) := by
  unfold createEnterStep at h
  by_cases hi : a.input_text ≠ ""
  · rw [if_pos hi] at h
    rcases hc : o.createEnvironment a.input_text with e | env <;> rw [hc] at h <;> dsimp only at h
    · cases h; exact ⟨rfl, fun hx => hx⟩
    · rw [show ((a.environments ++ [env]).length - 1) = a.environments.length by simp] at h
      rw [List.getElem?_concat_length] at h
      cases h
      constructor
      · exact (applyPkgResult_frame _ _).1
      · intro hx
        have hbase : SelInvB { a with
            environments := a.environments ++ [env],
            selected_environment := some a.environments.length } = true := by
          refine SelInvB_build ?_ (SelInvB_parts hx).2
          show selInvF (some a.environments.length) (a.environments ++ [env]).length = true
          exact selInvF_some _ _ (by simp)
        exact applyPkgResult_SelInv _ _ hbase
  · rw [if_neg hi] at h
    cases h; exact ⟨rfl, fun hx => hx⟩

theorem deleteYesStep_frame (o : Oracle) (a a' : App)
    (h : deleteYesStep o a = some a') :
    a'.status_message_timer = a.status_message_timer ∧
    (SelInvB a = true → SelInvB a' = true) := by
  unfold deleteYesStep at h
  rcases hs : a.selected_environment with _ | idx <;> rw [hs] at h <;> (try dsimp only [Option.map_some'] at h)
  · cases h
    refine ⟨rfl, fun hx => ?_⟩
    first
    | exact hx
    | exact SelInvB_build (hs ▸ (SelInvB_parts hx).1) (SelInvB_parts hx).2
  · rcases hg : a.environments[idx]? with _ | env <;> rw [hg] at h <;> (try dsimp only [Option.map_some'] at h)
    · cases h
    · rcases hd : o.deleteEnvironment env.path with e | u <;> rw [hd] at h <;>
        (try dsimp only [Option.map_some'] at h)
      · cases h
        refine ⟨rfl, fun hx => ?_⟩
        first
        | exact hx
        | exact SelInvB_build (hs ▸ (SelInvB_parts hx).1) (SelInvB_parts hx).2
      · by_cases he : (a.environments.eraseIdx idx).isEmpty
        · rw [if_pos he] at h
          (try dsimp only [Option.map_some'] at h)
          cases h
          refine ⟨rfl, fun hx => SelInvB_build ?_ ?_⟩
          · show selInvF none (a.environments.eraseIdx idx).length = true
            have h0 : (a.environments.eraseIdx idx).length = 0 := by simpa using he
            rw [h0]; exact selInvF_zero _
          · show selInvF a.selected_package (List.length ([] : List Package)) = true
            exact selInvF_zero _
        · rw [if_neg he] at h
          (try dsimp only [Option.map_some'] at h)
          rcases hg2 : (a.environments.eraseIdx idx)[min idx ((a.environments.eraseIdx idx).length - 1)]? with _ | e2 <;>
            rw [hg2] at h <;> (try dsimp only [Option.map_some'] at h)
          · cases h
          · cases h
            have hlen : 0 < (a.environments.eraseIdx idx).length := by
              rcases hee : a.environments.eraseIdx idx with _ | ⟨x, xs⟩
              · rw [hee] at he; simp at he
              · simp
            refine ⟨(applyPkgResult_frame _ _).1, fun hx => ?_⟩
            refine applyPkgResult_SelInv _ _ (SelInvB_build ?_ (SelInvB_parts hx).2)
            show selInvF (some (min idx ((a.environments.eraseIdx idx).length - 1)))
              (a.environments.eraseIdx idx).length = true
            refine selInvF_some _ _ ?_
            exact Nat.lt_of_le_of_lt (Nat.min_le_right _ _) (Nat.sub_lt hlen Nat.one_pos)

theorem installEnterStep_frame (o : Oracle) (a a' : App)
    (h : installEnterStep o a = some a') :
    a'.status_message_timer = a.status_message_timer ∧
    (SelInvB a = true → SelInvB a' = true) := by
  unfold installEnterStep at h
  by_cases hc : a.input_text ≠ "" ∧ a.selected_environment.isSome
  · rw [if_pos hc] at h
    rcases hs : a.selected_environment with _ | idx <;> rw [hs] at h <;> (try dsimp only [Option.map_some'] at h)
    · cases h
    · rcases hg : a.environments[idx]? with _ | env <;> rw [hg] at h <;> (try dsimp only [Option.map_some'] at h)
      · cases h
      · rcases hi2 : o.installPackage env.path a.input_text with e | u <;>
          rw [hi2] at h <;> (try dsimp only [Option.map_some'] at h)
        · cases h
          refine ⟨rfl, fun hx => ?_⟩
          first
          | exact hx
          | exact SelInvB_build (hs ▸ (SelInvB_parts hx).1) (SelInvB_parts hx).2
        · cases h
          refine ⟨(applyPkgResult_frame _ _).1, fun hx => ?_⟩
          refine applyPkgResult_SelInv _ _ ?_
          first
          | exact hx
          | exact SelInvB_build (hs ▸ (SelInvB_parts hx).1) (SelInvB_parts hx).2
  · rw [if_neg hc] at h
    cases h
    exact ⟨rfl, fun hx => hx⟩

theorem uninstallYesStep_frame (o : Oracle) (a a' : App)
    (h : uninstallYesStep o a = some a') :
    a'.status_message_timer = a.status_message_timer ∧
    (SelInvB a = true → SelInvB a' = true) := by
  unfold uninstallYesStep at h
  rcases hs : a.selected_environment with _ | envIdx <;> rw [hs] at h <;> (try dsimp only [Option.map_some'] at h)
  · cases h
    refine ⟨rfl, fun hx => ?_⟩
    first
    | exact hx
    | exact SelInvB_build (hs ▸ (SelInvB_parts hx).1) (SelInvB_parts hx).2
  · rcases hp : a.selected_package with _ | pkgIdx <;> rw [hp] at h <;> (try dsimp only [Option.map_some'] at h)
    · cases h
      refine ⟨rfl, fun hx => ?_⟩
      first
      | exact hx
      | exact SelInvB_build (hs ▸ (SelInvB_parts hx).1) (hp ▸ (SelInvB_parts hx).2)
      | exact SelInvB_build (hs ▸ (SelInvB_parts hx).1) (SelInvB_parts hx).2
      | exact SelInvB_build (SelInvB_parts hx).1 (hp ▸ (SelInvB_parts hx).2)
    · by_cases hb : pkgIdx < a.packages.length
      · rw [if_pos hb] at h
        rcases hg : a.environments[envIdx]? with _ | env <;> rw [hg] at h <;> (try dsimp only [Option.map_some'] at h)
        · cases h
        · rcases hn : a.packages[pkgIdx]? with _ | pkg <;> rw [hn] at h <;> (try dsimp only [Option.map_some'] at h)
          · cases h
          · rcases hu : o.uninstallPackage env.path pkg.name with e | u <;>
              rw [hu] at h <;> (try dsimp only [Option.map_some'] at h)
            · cases h
              refine ⟨rfl, fun hx => ?_⟩
              first
              | exact hx
              | exact SelInvB_build (hs ▸ (SelInvB_parts hx).1) (hp ▸ (SelInvB_parts hx).2)
              | exact SelInvB_build (hs ▸ (SelInvB_parts hx).1) (SelInvB_parts hx).2
              | exact SelInvB_build (SelInvB_parts hx).1 (hp ▸ (SelInvB_parts hx).2)
            · rcases hl : o.listPackages env.path with e | pkgs <;>
                rw [hl] at h <;> (try dsimp only [Option.map_some'] at h)
              · cases h
                refine ⟨rfl, fun hx => ?_⟩
                first
                | exact hx
                | exact SelInvB_build (hs ▸ (SelInvB_parts hx).1) (hp ▸ (SelInvB_parts hx).2)
                | exact SelInvB_build (hs ▸ (SelInvB_parts hx).1) (SelInvB_parts hx).2
                | exact SelInvB_build (SelInvB_parts hx).1 (hp ▸ (SelInvB_parts hx).2)
              · cases h
                have hpk2 : selInvF (some (min pkgIdx (pkgs.length - 1))) pkgs.length = true := by
                  rcases pkgs with _ | ⟨x, xs⟩
                  · exact selInvF_zero _
                  · refine selInvF_some _ _ ?_
                    refine Nat.lt_of_le_of_lt (Nat.min_le_right _ _) (Nat.sub_lt ?_ Nat.one_pos)
                    simp
                refine ⟨rfl, fun hx => ?_⟩
                first
                | exact SelInvB_build (hs ▸ (SelInvB_parts hx).1) hpk2
                | exact SelInvB_build (SelInvB_parts hx).1 hpk2
      · rw [if_neg hb] at h
        cases h
        refine ⟨rfl, fun hx => ?_⟩
        first
        | exact hx
        | exact SelInvB_build (hs ▸ (SelInvB_parts hx).1) (hp ▸ (SelInvB_parts hx).2)
        | exact SelInvB_build (hs ▸ (SelInvB_parts hx).1) (SelInvB_parts hx).2
        | exact SelInvB_build (SelInvB_parts hx).1 (hp ▸ (SelInvB_parts hx).2)

theorem searchEnterStep_frame (o : Oracle) (a a' : App)
    (h : searchEnterStep o a = some a') :
    a'.status_message_timer = a.status_message_timer ∧
    (SelInvB a = true → SelInvB a' = true) := by
  unfold searchEnterStep at h
  by_cases hi : a.input_text ≠ ""
  · rw [if_pos hi] at h
    (try dsimp only [Option.map_some'] at h)
    rcases hf : searchMatches (lowerString a.input_text) a.environments with _ | ⟨i, rest⟩ <;>
      rw [hf] at h <;> (try dsimp only [Option.map_some'] at h)
    · cases h
      exact ⟨rfl, fun hx => hx⟩
    · rcases hg : a.environments[i]? with _ | env <;> rw [hg] at h <;> (try dsimp only [Option.map_some'] at h)
      · cases h
      · cases h
        refine ⟨(applyPkgResult_frame _ _).1, fun hx => ?_⟩
        exact applyPkgResult_SelInv _ _
          (SelInvB_build (selInvF_some _ _ (getElem?_lt hg)) (SelInvB_parts hx).2)
  · rw [if_neg hi] at h
    cases h
    exact ⟨rfl, fun hx => hx⟩

theorem stepKey_frame (o : Oracle) (a a' : App) (k : Key)
    (h : stepKey o a k = some a') :
    a'.status_message_timer = a.status_message_timer ∧
    (SelInvB a = true → SelInvB a' = true) := by
  unfold stepKey at h
  split at h <;>
    (try split at h) <;>
    (repeat' split at h) <;>
    first
    | (cases h; exact ⟨rfl, fun hi => hi⟩)
    | (cases h; exact next_environment_frame a)
    | (cases h; exact previous_environment_frame a)
    | (cases h; exact next_package_frame a)
    | (cases h; exact previous_package_frame a)
    | (cases h; exact toggle_focus_frame a)
    | (cases h; exact refreshStep_frame o a)
    | exact enterNormalStep_frame o a a' h
    | exact toggleGlobalStep_frame o a a' h
    | exact createEnterStep_frame o a a' h
    | exact deleteYesStep_frame o a a' h
    | exact installEnterStep_frame o a a' h
    | exact uninstallYesStep_frame o a a' h
    | exact searchEnterStep_frame o a a' h

theorem runEvents_SelInv (evs : List Ev) (s a : App)
    (hs : SelInvB s = true) (h : runEvents s evs = some a) : SelInvB a = true := by
  induction evs generalizing s with
  | nil =>
    unfold runEvents at h
    cases h
    exact hs
  | cons e es ih =>
    unfold runEvents at h
    rcases he : applyEv s e with _ | s' <;> rw [he] at h
    · cases h
    · refine ih s' ?_ h
      cases e with
      | key o k => exact (stepKey_frame o s s' k he).2 hs
      | tick =>
        unfold applyEv at he
        cases he
        rw [tickStep_SelInv]
        exact hs

/-! ## Concrete fixtures shared by the session-layer results -/

/-- An oracle on which every external call fails; individual results override
single fields. -/
def oracle0 : Oracle where
  listEnvironments := .error "probe failure"
  listPackages := fun _ => .error "probe failure"
  listGlobalPackages := .error "probe failure"
  createEnvironment := fun _ => .error "probe failure"
  deleteEnvironment := fun _ => .error "probe failure"
  installPackage := fun _ _ => .error "probe failure"
  uninstallPackage := fun _ _ => .error "probe failure"

/-- A concrete discovered environment. -/
def envA : PythonEnvironment := ⟨"System Python", "/usr/bin/python3.11", "Python 3.11.4", "system"⟩

/-- A second concrete discovered environment with a distinct path. -/
def envB : PythonEnvironment := ⟨"proj", "/h/.virtualenvs/proj", "Python 3.12.1", "venv"⟩

/-! ## C1 — the selection invariant over all reachable session states -/

/-- C1 counterexample: from the initial state, a refresh discovering one
environment followed by a refresh discovering none reaches a state whose
environment list is empty while `selected_environment` is still `Some 0` —
so "`selected_environment` is `None` iff the environment list is empty" fails
on a reachable state. -/
theorem claim1_counterexample :
    (runEvents App.new
      [Ev.key { oracle0 with listEnvironments := .ok [envA] } (.char 'R'),
       Ev.key { oracle0 with listEnvironments := .ok [] } (.char 'R')]).map
      (fun a => (a.environments.length, a.selected_environment)) =
      some (0, some 0) := by
  rfl

/-- C1 (amended): in every session state reachable from the initial state by
input events and ticks, whenever the environment list is non-empty
`selected_environment` is `Some` of an index strictly below its length, and a
`None` selection occurs only with an empty list; the same holds for
`selected_package` against the package list.  (The converse direction of the
claimed iff fails: an empty list may retain a stale `Some` selection, e.g.
after a refresh that discovers no environments.) -/
theorem claim1_amended_selection_invariant (evs : List Ev) (a : App)
    (h : runEvents App.new evs = some a) : SelInvB a = true :=
  runEvents_SelInv evs App.new a (by decide) h

/-- Witness for the amended C1 at a concrete two-event trace. -/
theorem claim1_amended_selection_invariant_witness :
    SelInvB { App.new with
      environments := [envA], selected_environment := some 0,
      status_message := some "Environments refreshed" } = true :=
  claim1_amended_selection_invariant
    [Ev.key { oracle0 with listEnvironments := .ok [envA] } (.char 'R')] _ rfl

/-! ## C6 — status decay and replacement -/

theorem tick_iter_keeps (a : App) (m : String) (k : Nat)
    (hm : a.status_message = some m) (hk : a.status_message_timer + k ≤ 20) :
    (tickStep^[k] a).status_message = some m ∧
    (tickStep^[k] a).status_message_timer = a.status_message_timer + k := by
  induction k generalizing a with
  | zero => exact ⟨hm, rfl⟩
  | succ k ih =>
    rw [Function.iterate_succ_apply]
    have hts : tickStep a = { a with status_message_timer := a.status_message_timer + 1 } := by
      unfold tickStep
      rw [hm]
      dsimp only
      have h1 : (a.status_message_timer + 1) % 256 = a.status_message_timer + 1 :=
        Nat.mod_eq_of_lt (by omega)
      rw [h1, if_neg (by omega)]
    rw [hts]
    obtain ⟨h1, h2⟩ := ih { a with status_message_timer := a.status_message_timer + 1 }
      hm (by dsimp only; omega)
    refine ⟨h1, ?_⟩
    rw [h2]
    dsimp only
    omega

/-- C6 (amended): the status lifetime is an elapsed-tick counter counted
upward, not a per-message lifetime.  No key event ever touches the counter —
in particular, posting a new status message inherits the ticks already
consumed by the one it replaces instead of resetting to the full lifetime.
With the counter at `t ≤ 20` and a status active, the status survives
`20 - t` further ticks and is cleared (counter reset to zero) on tick
`21 - t`. -/
theorem claim6_amended_status_decay :
    (∀ (o : Oracle) (a a' : App) (k : Key), stepKey o a k = some a' →
        a'.status_message_timer = a.status_message_timer) ∧
    (∀ (a : App) (m : String) (t : Nat), a.status_message = some m →
        a.status_message_timer = t → t ≤ 20 →
        (tickStep^[20 - t] a).status_message = some m ∧
        (tickStep^[21 - t] a).status_message = none ∧
        (tickStep^[21 - t] a).status_message_timer = 0) := by
  constructor
  · exact fun o a a' k h => (stepKey_frame o a a' k h).1
  · intro a m t hm ht hle
    subst ht
    obtain ⟨hbm, hbt⟩ := tick_iter_keeps a m (20 - a.status_message_timer) hm (by omega)
    refine ⟨hbm, ?_⟩
    have h21 : 21 - a.status_message_timer = (20 - a.status_message_timer) + 1 := by omega
    rw [h21, Function.iterate_succ_apply']
    generalize hb : tickStep^[20 - a.status_message_timer] a = b at hbm hbt
    have hbt20 : b.status_message_timer = 20 := by omega
    unfold tickStep
    rw [hbm]
    dsimp only
    rw [hbt20]
    norm_num

/-- Witness for the amended C6: a key event preserving the counter, and the
full decay of a concrete status posted at counter zero. -/
theorem claim6_amended_status_decay_witness :
    (App.new.status_message_timer = App.new.status_message_timer) ∧
    ((tickStep^[20] { App.new with status_message := some "hello" }).status_message =
        some "hello" ∧
      (tickStep^[21] { App.new with status_message := some "hello" }).status_message = none ∧
      (tickStep^[21] { App.new with status_message := some "hello" }).status_message_timer = 0) :=
  ⟨claim6_amended_status_decay.1 oracle0 App.new App.new (.char 'q') rfl,
    claim6_amended_status_decay.2 { App.new with status_message := some "hello" }
      "hello" 0 rfl rfl (by omega)⟩

/-- C6 counterexample: a status posted while another is active does not get
the full lifetime.  After posting a status and letting 20 ticks elapse, the
replacement status posted by a second failing refresh is cleared by a single
further tick (and the pre-tick state shows the fresh message with the
inherited elapsed counter at 20) — under the claim it should survive 20 more
ticks. -/
theorem claim6_counterexample :
    ((runEvents App.new
        ([Ev.key { oracle0 with listEnvironments := .error "boom" } (.char 'R')] ++
          List.replicate 20 Ev.tick ++
          [Ev.key { oracle0 with listEnvironments := .error "fresh" } (.char 'R')])).map
      (fun a => (a.status_message, a.status_message_timer)) =
      some (some "Error refreshing environments: fresh", 20)) ∧
    ((runEvents App.new
        ([Ev.key { oracle0 with listEnvironments := .error "boom" } (.char 'R')] ++
          List.replicate 20 Ev.tick ++
          [Ev.key { oracle0 with listEnvironments := .error "fresh" } (.char 'R'),
           Ev.tick])).map
      (fun a => a.status_message) = some none) := by
  exact ⟨rfl, rfl⟩

/-! ## C7 — manual refresh and selection -/

/-- C7 counterexample: with environments A and B discovered and B selected, a
refresh that returns the very same list (so the selected path is still
present) moves the selection to index 0 — it does not continue to denote the
previously selected path. -/
theorem claim7_counterexample :
    ((runEvents App.new
        [Ev.key { oracle0 with listEnvironments := .ok [envA, envB] } (.char 'R'),
         Ev.key oracle0 .down]).map
      (fun a => (a.selected_environment, a.environments.map PythonEnvironment.path)) =
      some (some 1, ["/usr/bin/python3.11", "/h/.virtualenvs/proj"])) ∧
    ((runEvents App.new
        [Ev.key { oracle0 with listEnvironments := .ok [envA, envB] } (.char 'R'),
         Ev.key oracle0 .down,
         Ev.key { oracle0 with listEnvironments := .ok [envA, envB] } (.char 'R')]).map
      (fun a => (a.selected_environment, a.environments.map PythonEnvironment.path)) =
      some (some 0, ["/usr/bin/python3.11", "/h/.virtualenvs/proj"])) := by
  exact ⟨rfl, rfl⟩

/-- C7 (amended): a successful manual refresh replaces the environment list
wholesale; when the new list is non-empty the selection always resets to
index 0 (whether or not the previously selected path is still present) and
the refreshed status is posted, and when the new list is empty the selection
— possibly a stale `Some` — and every other field are left unchanged. -/
theorem claim7_amended_refresh (o : Oracle) (a : App) (envs : List PythonEnvironment)
    (hstate : a.state = AppState.normal)
    (hok : o.listEnvironments = .ok envs) :
    stepKey o a (.char 'R') =
      some (if envs.isEmpty then { a with environments := envs }
        else { a with environments := envs, selected_environment := some 0,
                      status_message := some "Environments refreshed" }) := by
  unfold stepKey refreshStep
  rw [hstate, hok]
  by_cases he : envs.isEmpty
  · simp [he]
  · simp [he]

/-- Witness for the amended C7 at a concrete state and discovery result. -/
theorem claim7_amended_refresh_witness :
    stepKey { oracle0 with listEnvironments := .ok [envB] } App.new (.char 'R') =
      some (if ([envB] : List PythonEnvironment).isEmpty then
          { App.new with environments := [envB] }
        else { App.new with
               environments := [envB], selected_environment := some 0,
               status_message := some "Environments refreshed" }) :=
  claim7_amended_refresh { oracle0 with listEnvironments := .ok [envB] } App.new [envB]
    rfl rfl

/-! ## C8 — search with no match leaves the session unchanged -/

/-- C8: a confirmed search (non-empty query) that matches no environment by
case-insensitive substring on name or path leaves `selected_environment`,
`selected_package` and the package list unchanged — the only changes are the
posted "No matching environments found" status and the return to the browse
state; and when the query does match, the first matching environment is
selected and its successfully listed packages replace the package list. -/
theorem claim8_search_no_match_frame (o : Oracle) (a : App)
    (hstate : a.state = AppState.searchEnvironment)
    (hne : a.input_text ≠ "") :
    (searchMatches (lowerString a.input_text) a.environments = [] →
      stepKey o a .enter =
        some { a with state := .normal,
                      status_message := some "No matching environments found" }) ∧
    (∀ i rest env pkgs,
      searchMatches (lowerString a.input_text) a.environments = i :: rest →
      a.environments[i]? = some env →
      o.listPackages env.path = .ok pkgs →
      stepKey o a .enter =
        some { a with state := .normal,
                      selected_environment := some i,
                      packages := pkgs,
                      selected_package :=
                        if pkgs.isEmpty then a.selected_package else some 0,
                      status_message :=
                        some ("Found " ++ toString (i :: rest).length ++
                          " matching environments") }) := by
  constructor
  · intro hmat
    unfold stepKey searchEnterStep
    rw [hstate]
    dsimp only
    rw [if_pos hne, hmat]
    rfl
  · intro i rest env pkgs hmat hget hok
    unfold stepKey searchEnterStep
    rw [hstate]
    dsimp only
    rw [if_pos hne, hmat]
    dsimp only
    rw [hget]
    dsimp only
    unfold applyPkgResult
    rw [hok]
    dsimp only
    by_cases hp : pkgs.isEmpty
    · rw [if_pos hp, if_pos hp]
      rfl
    · rw [if_neg hp, if_neg hp]
      rfl

/-- Witness for C8: searching for a query matching nothing in a one-element
environment list posts the no-match status and changes nothing else. -/
theorem claim8_search_no_match_frame_witness :
    stepKey oracle0
      { App.new with
        state := .searchEnvironment, input_text := "zzz",
        environments := [envA], selected_environment := some 0 } .enter =
      some { ({ App.new with
                state := .searchEnvironment, input_text := "zzz",
                environments := [envA], selected_environment := some 0 } : App) with
             state := .normal,
             status_message := some "No matching environments found" } :=
  (claim8_search_no_match_frame oracle0 _ rfl (by decide)).1 rfl

/-! ## C3 — the install/uninstall candidate chain -/

theorem pipChainGo_eq_firstLaunched (w : PipWorld) (msg : String) (sub : List String)
    (ps : List String) :
    pipChainGo w msg sub ps =
      (match firstLaunched w sub ps with
       | none => .error "Could not find pip executable"
       | some out => if out.success then .ok () else .error (msg ++ out.stderr)) := by
  induction ps with
  | nil => rfl
  | cons p rest ih =>
    unfold pipChainGo firstLaunched
    by_cases he : w.pathExists p
    · rw [if_pos he, if_pos he]
      rcases hr : runPipAt w sub p with e | out
      · exact ih
      · rfl
    · rw [if_neg he, if_neg he]
      exact ih

/-- C3 (amended): for both mutation operations, the outcome is decided by the
first candidate in the chain that exists on disk *and whose spawn succeeds*:
a clean exit returns success, a non-zero exit returns that candidate's
captured stderr behind the operation's message without trying any later
candidate; a candidate advances the chain when it is missing *or when
spawning it fails*; and when every candidate is missing or fails to spawn the
distinct "Could not find pip executable" error is returned. -/
theorem claim3_amended_pip_chain (w : PipWorld) (envPath packageName : String) :
    install_package w envPath packageName =
      (match firstLaunched w ["install", packageName] (pipCandidates envPath) with
       | none => .error "Could not find pip executable"
       | some out =>
         if out.success then .ok ()
         else .error ("Failed to install package: " ++ out.stderr)) ∧
    uninstall_package w envPath packageName =
      (match firstLaunched w ["uninstall", "-y", packageName] (pipCandidates envPath) with
       | none => .error "Could not find pip executable"
       | some out =>
         if out.success then .ok ()
         else .error ("Failed to uninstall package: " ++ out.stderr)) :=
  ⟨pipChainGo_eq_firstLaunched w _ _ _, pipChainGo_eq_firstLaunched w _ _ _⟩

/-- The world refuting C3 as stated: `bin/pip` exists on disk but spawning it
fails (e.g. permission denied), while `bin/pip3` exists and runs cleanly. -/
def pipWorldC3 : PipWorld where
  pathExists := fun p => p == "/e/bin/pip" || p == "/e/bin/pip3"
  run := fun p _ =>
    if p == "/e/bin/pip" then .error "permission denied"
    else if p == "/e/bin/pip3" then .ok ⟨true, "", ""⟩
    else .error "no such file"

/-- C3 counterexample: the first candidate of the chain exists on disk, yet it
does not determine the outcome — its spawn fails and the chain advances to the
next candidate, which succeeds, so `install_package` returns `Ok` even though
the first *existing* executable never ran.  This contradicts "the first
executable in the three-candidate chain that exists on disk determines the
outcome" and "only a candidate that does not exist advances the chain". -/
theorem claim3_counterexample :
    pipWorldC3.pathExists "/e/bin/pip" = true ∧
    runPipAt pipWorldC3 ["install", "requests"] "/e/bin/pip" = .error "permission denied" ∧
    (pipCandidates "/e").head? = some "/e/bin/pip" ∧
    install_package pipWorldC3 "/e" "requests" = .ok () := by
  exact ⟨rfl, rfl, rfl, rfl⟩

/-! ## C4 — parse failure advances the listing chain -/

theorem normRun_error (parse : String → Option (List RawPkg)) (e : String) :
    normRun parse (.error e) = .error e := rfl

theorem normRun_ok (parse : String → Option (List RawPkg)) (out : RunOut) :
    normRun parse (.ok out) =
      (if out.success then
        (match parse out.stdout with
         | none => .error "unparsable output"
         | some _ => .ok out)
      else .ok out) := rfl

theorem listChainGo_norm (w : ListWorld) (ps : List String) :
    listChainGo { w with runList := fun p => normRun w.parse (w.runList p) } ps =
      listChainGo w ps := by
  induction ps with
  | nil => rfl
  | cons p rest ih =>
    by_cases he : w.pathExists p
    · rcases hr : w.runList p with e | out
      · simp [listChainGo, he, hr, normRun_error, ih]
      · by_cases hsuc : out.success
        · rcases hp : w.parse out.stdout with _ | l
          · simp [listChainGo, he, hr, normRun_ok, hsuc, hp, ih]
          · simp [listChainGo, he, hr, normRun_ok, hsuc, hp]
        · simp [listChainGo, he, hr, normRun_ok, hsuc, ih]
    · simp [listChainGo, he, ih]

theorem globalScriptStep_norm (parse : String → Option (List RawPkg))
    (r : Except String RunOut) :
    globalScriptStep parse (normRun parse r) = globalScriptStep parse r := by
  rcases r with e | out
  · rfl
  · by_cases hsuc : out.success
    · rcases hp : parse out.stdout with _ | l
      · simp [globalScriptStep, normRun, hsuc, hp]
      · simp [globalScriptStep, normRun, hsuc, hp]
    · simp [globalScriptStep, normRun, hsuc]

theorem pip3Fill_norm (parse : String → Option (List RawPkg))
    (r : Except String RunOut) :
    list_global_packages.pip3Fill parse (normRun parse r) =
      list_global_packages.pip3Fill parse r := by
  rcases r with e | out
  · rfl
  · by_cases hsuc : out.success
    · rcases hp : parse out.stdout with _ | l
      · simp [list_global_packages.pip3Fill, normRun, hsuc, hp]
      · simp [list_global_packages.pip3Fill, normRun, hsuc, hp]
    · simp [list_global_packages.pip3Fill, normRun, hsuc]

theorem list_global_rest_norm (g : GlobalWorld) :
    list_global_packages.list_global_rest
      { g with runPip3 := normRun g.parse g.runPip3,
               runPyScript := normRun g.parse g.runPyScript,
               runPy3Script := normRun g.parse g.runPy3Script } =
      list_global_packages.list_global_rest g := by
  unfold list_global_packages.list_global_rest
  dsimp only
  rw [pip3Fill_norm, globalScriptStep_norm, globalScriptStep_norm]

/-- C4 (amended): in the environment-scoped `list_packages` chain a step that
exits cleanly with unparsable output is treated exactly like a step whose
spawn failed — replacing every clean-but-unparsable structured-list outcome
by a spawn failure leaves the result unchanged, so the chain advances past
it.  The same equivalence holds for the `pip3` and both interpreter steps of
`list_global_packages`.  The `pip` step of the global chain is the exception
the counterexample exhibits: when `pip` exits cleanly with unparsable output
the function returns `Ok []` immediately instead of advancing. -/
theorem claim4_amended_parse_failure_advances (w : ListWorld) (envPath : String)
    (g : GlobalWorld) :
    (list_packages { w with runList := fun p => normRun w.parse (w.runList p) } envPath =
      list_packages w envPath) ∧
    (list_global_packages
        { g with runPip3 := normRun g.parse g.runPip3,
                 runPyScript := normRun g.parse g.runPyScript,
                 runPy3Script := normRun g.parse g.runPy3Script } =
      list_global_packages g) ∧
    (∀ out, g.runPip = .ok out → out.success = true → g.parse out.stdout = none →
      list_global_packages g = .ok []) := by
  refine ⟨?_, ?_, ?_⟩
  · unfold list_packages
    rw [listChainGo_norm]
  · unfold list_global_packages
    dsimp only
    rw [list_global_rest_norm]
  · intro out hr hsuc hp
    unfold list_global_packages
    rw [hr]
    dsimp only
    rw [if_pos hsuc, hp]

/-- The global world refuting C4 as stated: `pip` exits cleanly but its output
does not parse, while `pip3` would exit cleanly with a parseable one-package
listing. -/
def globalWorldC4 : GlobalWorld where
  runPip := .ok ⟨true, "garbage", ""⟩
  runPip3 := .ok ⟨true, "good", ""⟩
  runPyScript := .error "absent"
  runPy3Script := .error "absent"
  parse := fun s =>
    if s == "good" then some [⟨some "requests", some "2.31.0", none⟩] else none

/-- C4 counterexample: in `list_global_packages` a clean `pip` exit whose
output does not parse does *not* count as a failure that advances the chain —
the function returns `Ok []` at once, even though the next step (`pip3`)
exists, exits cleanly and parses to a non-empty package list that the claimed
chain-advancement would have returned. -/
theorem claim4_counterexample :
    globalWorldC4.parse "garbage" = none ∧
    globalWorldC4.parse "good" = some [⟨some "requests", some "2.31.0", none⟩] ∧
    list_global_packages globalWorldC4 = .ok [] := by
  exact ⟨rfl, rfl, rfl⟩

/-! ## C5 — when list_packages can return an error -/

theorem listChainGo_none_iff (w : ListWorld) (ps : List String) :
    listChainGo w ps = none ↔ ∀ p ∈ ps, stepGood w p = false := by
  induction ps with
  | nil => simp [listChainGo]
  | cons p rest ih =>
    by_cases he : w.pathExists p
    · rcases hr : w.runList p with e | out
      · simp [listChainGo, stepGood, he, hr, ih]
      · by_cases hsuc : out.success
        · rcases hp : w.parse out.stdout with _ | l
          · simp [listChainGo, stepGood, he, hr, hsuc, hp, ih]
          · simp [listChainGo, stepGood, he, hr, hsuc, hp]
        · simp [listChainGo, stepGood, he, hr, hsuc, ih]
    · simp [listChainGo, stepGood, he, ih]

/-- C5 (amended): `list_packages` is *not* total — it returns an error in
exactly one situation: every step of the three-candidate chain fails (missing
executable, spawn failure, non-zero exit or unparsable output), the
interpreter exists, and spawning the embedded-introspection invocation itself
fails; the propagated error is that spawn failure's.  In every other
combination of outcomes it returns `Ok` (possibly the empty list). -/
theorem claim5_amended_listing_error (w : ListWorld) (envPath e : String) :
    list_packages w envPath = .error e ↔
      ((∀ p ∈ pipCandidates envPath, stepGood w p = false) ∧
        w.pathExists (envPath ++ "/bin/python") = true ∧
        w.runScript (envPath ++ "/bin/python") = .error e) := by
  unfold list_packages
  rcases hc : listChainGo w (pipCandidates envPath) with _ | pkgs
  · dsimp only
    have hall := (listChainGo_none_iff w (pipCandidates envPath)).mp hc
    by_cases hpy : w.pathExists (envPath ++ "/bin/python")
    · rw [if_pos hpy]
      rcases hs : w.runScript (envPath ++ "/bin/python") with e2 | out
      · constructor
        · intro hx
          cases hx
          exact ⟨hall, hpy, rfl⟩
        · rintro ⟨_, _, hs2⟩
          cases hs2
          rfl
      · dsimp only
        constructor
        · intro hx
          by_cases hsuc : out.success
          · rw [if_pos hsuc] at hx
            rcases hp : w.parse out.stdout with _ | l <;> rw [hp] at hx <;> cases hx
          · rw [if_neg hsuc] at hx
            cases hx
        · rintro ⟨_, _, hs2⟩
          cases hs2
    · rw [if_neg hpy]
      constructor
      · intro hx; cases hx
      · rintro ⟨_, hpy2, _⟩
        exact absurd hpy2 hpy
  · dsimp only
    constructor
    · intro hx; cases hx
    · rintro ⟨hall, _, _⟩
      rw [(listChainGo_none_iff w (pipCandidates envPath)).mpr hall] at hc
      cases hc

/-- The world refuting C5: nothing but the interpreter exists, the
interpreter's module-mode listing fails to spawn, and so does the
embedded-script invocation — `list_packages` propagates that spawn failure as
a hard `Err` instead of returning an empty list. -/
def listWorldC5 : ListWorld where
  pathExists := fun p => p == "/e/bin/python"
  runList := fun _ => .error "spawn failed"
  runScript := fun _ => .error "boom"
  parse := fun _ => none

/-- C5 counterexample: a concrete environment path and tool outcomes on which
`list_packages` returns an error, refuting "list_packages never returns an
error for any environment path". -/
theorem claim5_counterexample :
    list_packages listWorldC5 "/e" = .error "boom" := by
  rfl

/-! ## C2 — deduplication across the discovery probes -/

theorem foldl_append_extend {α β : Type} (f : List α → β → List α) (g : β → List α)
    (hf : ∀ acc x, f acc x = acc ++ g x) :
    ∀ (l : List β) (acc : List α), l.foldl f acc = acc ++ l.foldl f [] := by
  intro l
  induction l with
  | nil => intro acc; simp
  | cons x xs ih =>
    intro acc
    simp only [List.foldl_cons]
    rw [ih (f acc x), ih (f [] x), hf acc x, hf [] x]
    simp [List.append_assoc]

theorem detect_venv_append (w : DiscWorld) (envs : List PythonEnvironment) :
    ∃ add, detect_venv_environments w envs = envs ++ add := by
  unfold detect_venv_environments
  dsimp only
  have hstep : ∀ (acc : List PythonEnvironment) (p : String),
      (if w.isDir p && is_virtualenv w p then
        match create_environment_from_path w p "venv" with
        | some e => acc ++ [e]
        | none => acc
      else acc) =
      acc ++ (if w.isDir p && is_virtualenv w p then
        match create_environment_from_path w p "venv" with
        | some e => [e]
        | none => []
      else []) := by
    intro acc p
    by_cases h : w.isDir p && is_virtualenv w p
    · rw [if_pos h, if_pos h]
      rcases create_environment_from_path w p "venv" with _ | e <;> simp
    · rw [if_neg h, if_neg h]
      simp
  by_cases h1 : w.isDir (w.homeDir ++ "/.virtualenvs")
  · rw [if_pos h1]
    rcases hrd : w.readDir (w.homeDir ++ "/.virtualenvs") with _ | entries <;> dsimp only
    · by_cases h2 : w.isDir (w.homeDir ++ "/.venv") && is_virtualenv w (w.homeDir ++ "/.venv")
      · rw [if_pos h2]
        rcases create_environment_from_path w (w.homeDir ++ "/.venv") "venv" with _ | e <;>
        dsimp only
        · exact ⟨[], by simp⟩
        · exact ⟨[e], rfl⟩
      · rw [if_neg h2]
        exact ⟨[], by simp⟩
    · rw [foldl_append_extend _ _ hstep entries envs]
      by_cases h2 : w.isDir (w.homeDir ++ "/.venv") && is_virtualenv w (w.homeDir ++ "/.venv")
      · rw [if_pos h2]
        rcases create_environment_from_path w (w.homeDir ++ "/.venv") "venv" with _ | e <;>
        dsimp only
        · exact ⟨_, rfl⟩
        · exact ⟨_, by rw [List.append_assoc]⟩
      · rw [if_neg h2]
        exact ⟨_, rfl⟩
  · rw [if_neg h1]
    by_cases h2 : w.isDir (w.homeDir ++ "/.venv") && is_virtualenv w (w.homeDir ++ "/.venv")
    · rw [if_pos h2]
      rcases create_environment_from_path w (w.homeDir ++ "/.venv") "venv" with _ | e <;>
        dsimp only
      · exact ⟨[], by simp⟩
      · exact ⟨[e], rfl⟩
    · rw [if_neg h2]
      exact ⟨[], by simp⟩

theorem detect_pyenv_append (w : DiscWorld) (envs : List PythonEnvironment) :
    ∃ add, detect_pyenv_environments w envs = envs ++ add := by
  unfold detect_pyenv_environments
  dsimp only
  by_cases h1 : w.isDir (w.homeDir ++ "/.pyenv/versions")
  · rw [if_pos h1]
    rcases hrd : w.readDir (w.homeDir ++ "/.pyenv/versions") with _ | entries <;> dsimp only
    · exact ⟨[], by simp⟩
    · have hstep : ∀ (acc : List PythonEnvironment) (p : String),
          (if w.isDir p then
            if w.pathExists (p ++ "/bin/python") then
              match w.run (p ++ "/bin/python") ["--version"] with
              | .ok out =>
                if out.success then
                  acc ++ [⟨"pyenv: " ++ (pathFileName p).getD "", p, pickVersion out, "pyenv"⟩]
                else acc
              | .error _ => acc
            else acc
          else acc) =
          acc ++ (if w.isDir p then
            if w.pathExists (p ++ "/bin/python") then
              match w.run (p ++ "/bin/python") ["--version"] with
              | .ok out =>
                if out.success then
                  [⟨"pyenv: " ++ (pathFileName p).getD "", p, pickVersion out, "pyenv"⟩]
                else []
              | .error _ => []
            else []
          else []) := by
        intro acc p
        by_cases hd : w.isDir p
        · rw [if_pos hd, if_pos hd]
          by_cases hx : w.pathExists (p ++ "/bin/python")
          · rw [if_pos hx, if_pos hx]
            rcases w.run (p ++ "/bin/python") ["--version"] with _ | out <;> dsimp only
            · simp
            · by_cases hsuc : out.success
              · rw [if_pos hsuc, if_pos hsuc]
              · rw [if_neg hsuc, if_neg hsuc]; simp
          · rw [if_neg hx, if_neg hx]; simp
        · rw [if_neg hd, if_neg hd]; simp
      exact ⟨_, foldl_append_extend _ _ hstep entries envs⟩
  · rw [if_neg h1]
    exact ⟨[], by simp⟩

theorem detect_conda_append (w : DiscWorld) (envs : List PythonEnvironment) :
    ∃ add, detect_conda_environments w envs = envs ++ add := by
  unfold detect_conda_environments
  rcases hr : w.run "conda" ["env", "list", "--json"] with e | out <;> dsimp only
  · exact ⟨[], by simp⟩
  · by_cases hsuc : out.success
    · rw [if_pos hsuc]
      rcases hp : w.condaParse out.stdout with _ | paths <;> dsimp only
      · exact ⟨[], by simp⟩
      · have hstep : ∀ (acc : List PythonEnvironment) (pathStr : String),
            (if w.pathExists (if w.pathExists (pathStr ++ "/bin/python") then
                pathStr ++ "/bin/python" else pathStr ++ "/python.exe") then
              match w.run (if w.pathExists (pathStr ++ "/bin/python") then
                  pathStr ++ "/bin/python" else pathStr ++ "/python.exe") ["--version"] with
              | .ok o2 =>
                if o2.success then
                  acc ++ [⟨"conda: " ++ (pathFileName pathStr).getD "", pathStr,
                    pickVersion o2, "conda"⟩]
                else acc
              | .error _ => acc
            else acc) =
            acc ++ (if w.pathExists (if w.pathExists (pathStr ++ "/bin/python") then
                pathStr ++ "/bin/python" else pathStr ++ "/python.exe") then
              match w.run (if w.pathExists (pathStr ++ "/bin/python") then
                  pathStr ++ "/bin/python" else pathStr ++ "/python.exe") ["--version"] with
              | .ok o2 =>
                if o2.success then
                  [⟨"conda: " ++ (pathFileName pathStr).getD "", pathStr,
                    pickVersion o2, "conda"⟩]
                else []
              | .error _ => []
            else []) := by
          intro acc pathStr
          by_cases hx : w.pathExists (if w.pathExists (pathStr ++ "/bin/python") then
              pathStr ++ "/bin/python" else pathStr ++ "/python.exe")
          · rw [if_pos hx, if_pos hx]
            rcases w.run (if w.pathExists (pathStr ++ "/bin/python") then
                pathStr ++ "/bin/python" else pathStr ++ "/python.exe") ["--version"] with _ | o2 <;>
              dsimp only
            · simp
            · by_cases hs2 : o2.success
              · rw [if_pos hs2, if_pos hs2]
              · rw [if_neg hs2, if_neg hs2]; simp
          · rw [if_neg hx, if_neg hx]; simp
        exact ⟨_, foldl_append_extend _ _ hstep paths envs⟩
    · rw [if_neg hsuc]
      exact ⟨[], by simp⟩

theorem detect_local_append (w : DiscWorld) (envs : List PythonEnvironment) :
    ∃ add, detect_local_environments w envs = envs ++ add := by
  unfold detect_local_environments
  rcases hrd : w.readDir "." with _ | entries <;> dsimp only
  · exact ⟨[], by simp⟩
  · have hstep : ∀ (acc : List PythonEnvironment) (p : String),
        (if w.isDir p then
          if is_virtualenv w p then
            match create_environment_from_path w p "venv" with
            | some e => acc ++ [e]
            | none => acc
          else acc
        else acc) =
        acc ++ (if w.isDir p then
          if is_virtualenv w p then
            match create_environment_from_path w p "venv" with
            | some e => [e]
            | none => []
          else []
        else []) := by
      intro acc p
      by_cases hd : w.isDir p
      · rw [if_pos hd, if_pos hd]
        by_cases hv : is_virtualenv w p
        · rw [if_pos hv, if_pos hv]
          rcases create_environment_from_path w p "venv" with _ | e <;> simp
        · rw [if_neg hv, if_neg hv]; simp
      · rw [if_neg hd, if_neg hd]; simp
    exact ⟨_, foldl_append_extend _ _ hstep entries envs⟩

theorem pairwise_of_short {α : Type} (R : α → α → Prop) :
    ∀ l : List α, l.length ≤ 1 → l.Pairwise R := by
  intro l h
  match l with
  | [] => exact List.Pairwise.nil
  | [a] => simp
  | a :: b :: t => simp at h

theorem detect_system_python3_spec (w : DiscWorld) (envs1 : List PythonEnvironment) :
    ∃ add, (detect_system_python3 w envs1).1 = envs1 ++ add ∧
      add.length ≤ 1 ∧
      ∀ e ∈ add, e.name = "System Python 3" ∧ ∀ x ∈ envs1, x.path ≠ e.path := by
  unfold detect_system_python3
  rcases h3 : w.run "python3" ["--version"] with e | o <;> (try dsimp only)
  · exact ⟨[], by simp, by simp, by simp⟩
  · by_cases hs : o.success
    · rw [if_pos hs]
      rcases h4 : w.run "python3" ["-c", "import sys; print(sys.executable)"] with e4 | o4 <;>
        (try dsimp only)
      · exact ⟨[], by simp, by simp, by simp⟩
      · by_cases hs4 : o4.success
        · rw [if_pos hs4]
          (try dsimp only)
          by_cases hall : envs1.all (fun env => env.path != strTrim o4.stdout)
          · rw [if_pos hall]
            refine ⟨[⟨"System Python 3", strTrim o4.stdout, pickVersion o, "system"⟩],
              rfl, by simp, ?_⟩
            intro e he
            simp only [List.mem_singleton] at he
            subst he
            refine ⟨rfl, ?_⟩
            intro x hx
            have hx2 := List.all_eq_true.mp hall x hx
            simpa using hx2
          · rw [if_neg hall]
            exact ⟨[], by simp, by simp, by simp⟩
        · rw [if_neg hs4]
          exact ⟨[], by simp, by simp, by simp⟩
    · rw [if_neg hs]
      exact ⟨[], by simp, by simp, by simp⟩

/-- C2 (amended): every discovery probe only appends to the shared
accumulator (candidates arrive in deterministic source order), and the *only*
duplicate check in all of discovery sits inside the system probe: the
`python3`-derived candidate is discarded exactly when its path already occurs
in the list accumulated so far (first-seen wins there), so the probe's own
additions are pairwise path-distinct.  No other probe checks for duplicates,
and the full five-probe result may therefore contain two entries with the
same path (see the counterexample). -/
theorem claim2_amended_dedup_only_in_system_probe (w : DiscWorld)
    (envs : List PythonEnvironment) :
    (∃ add, (detect_system_python w envs).1 = envs ++ add ∧
      add.Pairwise (fun e1 e2 => e1.path ≠ e2.path) ∧
      ∀ e ∈ add, e.name = "System Python 3" → ∀ x ∈ envs, x.path ≠ e.path) ∧
    (∃ add, detect_venv_environments w envs = envs ++ add) ∧
    (∃ add, detect_pyenv_environments w envs = envs ++ add) ∧
    (∃ add, detect_conda_environments w envs = envs ++ add) ∧
    (∃ add, detect_local_environments w envs = envs ++ add) := by
  refine ⟨?_, detect_venv_append w envs, detect_pyenv_append w envs,
    detect_conda_append w envs, detect_local_append w envs⟩
  unfold detect_system_python
  dsimp only
  rcases h1 : w.run "python" ["--version"] with e1 | o1 <;> dsimp only
  · obtain ⟨add3, heq, hlen, hprop⟩ := detect_system_python3_spec w envs
    refine ⟨add3, heq, pairwise_of_short _ _ hlen, ?_⟩
    intro e he _ x hx
    exact (hprop e he).2 x hx
  · by_cases hs1 : o1.success
    · rw [if_pos hs1]
      rcases h2 : w.run "python" ["-c", "import sys; print(sys.executable)"] with e2 | o2 <;>
        dsimp only
      · exact ⟨[], by simp, by simp, by simp⟩
      · by_cases hs2 : o2.success
        · rw [if_pos hs2]
          dsimp only
          obtain ⟨add3, heq, hlen, hprop⟩ := detect_system_python3_spec w
            (envs ++ [⟨"System Python", strTrim o2.stdout, pickVersion o1, "system"⟩])
          refine ⟨⟨"System Python", strTrim o2.stdout, pickVersion o1, "system"⟩ :: add3,
            ?_, ?_, ?_⟩
          · rw [heq, List.append_assoc]
            rfl
          · rw [List.pairwise_cons]
            refine ⟨?_, pairwise_of_short _ _ hlen⟩
            intro e he
            exact (hprop e he).2
              ⟨"System Python", strTrim o2.stdout, pickVersion o1, "system"⟩ (by simp)
          · intro e he hname x hx
            rcases List.mem_cons.mp he with he1 | he2
            · subst he1
              simp at hname
            · exact (hprop e he2).2 x (List.mem_append_left _ hx)
        · rw [if_neg hs2]
          obtain ⟨add3, heq, hlen, hprop⟩ := detect_system_python3_spec w envs
          refine ⟨add3, heq, pairwise_of_short _ _ hlen, ?_⟩
          intro e he _ x hx
          exact (hprop e he).2 x hx
    · rw [if_neg hs1]
      obtain ⟨add3, heq, hlen, hprop⟩ := detect_system_python3_spec w envs
      refine ⟨add3, heq, pairwise_of_short _ _ hlen, ?_⟩
      intro e he _ x hx
      exact (hprop e he).2 x hx

/-- The discovery world refuting C2: the registry of the named-environment
manager (conda) lists a directory that the `~/.virtualenvs` scan also
discovers, and nothing deduplicates across probes. -/
def discWorldC2 : DiscWorld where
  isDir := fun p => p == "/h/.virtualenvs" || p == "/h/.virtualenvs/e1"
  pathExists := fun p =>
    p == "/h/.virtualenvs/e1/bin/python" || p == "/h/.virtualenvs/e1/bin/activate"
  readDir := fun p => if p == "/h/.virtualenvs" then some ["/h/.virtualenvs/e1"] else none
  run := fun p args =>
    if p == "/h/.virtualenvs/e1/bin/python" && args == ["--version"] then
      .ok ⟨true, "Python 3.11.0", ""⟩
    else if p == "conda" then .ok ⟨true, "CONDA_JSON", ""⟩
    else .error "spawn failed"
  homeDir := "/h"
  condaParse := fun s => if s == "CONDA_JSON" then some ["/h/.virtualenvs/e1"] else none

/-- C2 counterexample: discovery returns two entries with the same path — the
`~/.virtualenvs` scan and the conda registry both contribute
`/h/.virtualenvs/e1`, and no cross-probe duplicate check discards the later
one.  This refutes "no two entries in the returned environment list have the
same canonical interpreter path ... over all five source probes". -/
theorem claim2_counterexample :
    (list_environments discWorldC2).map PythonEnvironment.path =
      ["/h/.virtualenvs/e1", "/h/.virtualenvs/e1"] := by
  rfl
